import Mathlib

/-!
Verification of the `flask_shadowsession` module: a Flask session extension
that keeps a client-side signed-cookie mapping together with a server-side
"shadow" record stored as a Redis hash under a lazily generated key.

The development shallowly embeds the Python code of
`src/flask_shadowsession/flask_shadowsession.py`:

* `RedisState` models the key-value store contract the module requires of the
  Redis client collaborator (`setnx`, `exists`, `delete`, `renamenx`,
  `expire`, hash-field get/set/delete), with per-key TTLs.
* `SState` carries the combined mutable state of one `ShadowSession` object:
  the cookie-side mapping, the `modified`/`permanent` flags, and the
  `ShadowSessionDict` attributes (`accessed`, `key`, `max_age`), plus the
  Redis state and a trace of every store command issued (pipelined commands
  are grouped in a single `TraceItem.pipe` trace entry, mirroring
  `redis.pipeline() ... execute()`).
* The operations (`open_session`, `_create_hash`, `regenerate_key`, item
  access, `exists`, `delete`, `save_session`, and the interface-level
  `open_session`) are translated function by function.

The `flask_redisdict.RedisDict` base class and Flask's
`SecureCookieSession` are external collaborators whose sources are not part
of this repository; where their behaviour is needed (field operations
reflecting to the hash, `exists`/`delete` against the store, dict-style
`pop`), it is modelled from the specification's collaborator contract and
the corresponding definitions say so in their doc comments.
-/

set_option maxHeartbeats 1000000

namespace ShadowSpec

/-! ## Association lists (string-keyed maps used for the store and the cookie) -/

/-- Lookup of the first binding of `k` in an association list. -/
def alookup {α : Type} (k : String) : List (String × α) → Option α
  | [] => none
  | (k', v) :: t => if k' = k then some v else alookup k t

/-- Set `k` to `v`: replace the first binding in place, or append a new one. -/
def aset {α : Type} (k : String) (v : α) : List (String × α) → List (String × α)
  | [] => [(k, v)]
  | (k', v') :: t => if k' = k then (k, v) :: t else (k', v') :: aset k v t

/-- Remove every binding of `k`. -/
def aremove {α : Type} (k : String) : List (String × α) → List (String × α)
  | [] => []
  | (k', v) :: t => if k' = k then aremove k t else (k', v) :: aremove k t

theorem alookup_aset_self {α : Type} (k : String) (v : α) :
    ∀ l : List (String × α), alookup k (aset k v l) = some v := by
  intro l
  induction l with
  | nil => simp [aset, alookup]
  | cons p t ih =>
    by_cases h : p.1 = k
    · simp [aset, alookup, h]
    · simp [aset, alookup, h, ih]

theorem alookup_aset_ne {α : Type} {k k' : String} (v : α) (h : k ≠ k') :
    ∀ l : List (String × α), alookup k (aset k' v l) = alookup k l := by
  intro l
  have h' : k' ≠ k := Ne.symm h
  induction l with
  | nil => simp [aset, alookup, h']
  | cons p t ih =>
    by_cases hp : p.1 = k'
    · simp [aset, alookup, hp, h']
    · by_cases hk : p.1 = k
      · simp [aset, alookup, hp, hk, h]
      · simp [aset, alookup, hp, hk, ih]

theorem alookup_aremove_self {α : Type} (k : String) :
    ∀ l : List (String × α), alookup k (aremove k l) = none := by
  intro l
  induction l with
  | nil => simp [aremove, alookup]
  | cons p t ih =>
    by_cases h : p.1 = k
    · simp [aremove, h, ih]
    · simp [aremove, alookup, h, ih]

theorem alookup_aremove_ne {α : Type} {k k' : String} (h : k ≠ k') :
    ∀ l : List (String × α), alookup k (aremove k' l) = alookup k l := by
  intro l
  have h' : k' ≠ k := Ne.symm h
  induction l with
  | nil => simp [aremove]
  | cons p t ih =>
    by_cases hp : p.1 = k'
    · simp [aremove, alookup, hp, h', ih]
    · by_cases hk : p.1 = k
      · simp [aremove, alookup, hp, hk, h]
      · simp [aremove, alookup, hp, hk, ih]

theorem aremove_of_alookup_none {α : Type} {k : String} :
    ∀ {l : List (String × α)}, alookup k l = none → aremove k l = l := by
  intro l
  induction l with
  | nil => intro _; rfl
  | cons p t ih =>
    intro h
    by_cases hp : p.1 = k
    · simp [alookup, hp] at h
    · simp [alookup, hp] at h
      simp [aremove, hp, ih h]

theorem aremove_cons_of_eq {α : Type} {k k' : String} (v : α) (h : k' = k)
    (l : List (String × α)) : aremove k ((k', v) :: l) = aremove k l := by
  simp [aremove, h]

theorem aset_cons_ne {α : Type} {k k' : String} (v v' : α) (h : k' ≠ k)
    (l : List (String × α)) :
    aset k v ((k', v') :: l) = (k', v') :: aset k v l := by
  simp [aset, h]

theorem aremove_cons_ne {α : Type} {k k' : String} (v : α) (h : k' ≠ k)
    (l : List (String × α)) :
    aremove k ((k', v) :: l) = (k', v) :: aremove k l := by
  simp [aremove, h]

/-- A key distinct from `k` is unaffected by removing `k`. -/
theorem alookup_aremove_none {α : Type} {k k' : String} :
    ∀ {l : List (String × α)}, alookup k l = none →
      alookup k (aremove k' l) = none := by
  intro l
  induction l with
  | nil => intro _; rfl
  | cons p t ih =>
    intro h
    by_cases hp : p.1 = k
    · simp [alookup, hp] at h
    · simp [alookup, hp] at h
      by_cases hq : p.1 = k'
      · simp [aremove, hq, ih h]
      · simp [aremove, alookup, hq, hp, ih h]

/-! ## The key-value store model (Redis collaborator contract) -/

/-- A store entry: either a plain integer value (used for the `-reserved`
markers written with `setnx`) or a hash (field name to value mapping). -/
inductive Entry (V : Type) where
  | int : Nat → Entry V
  | hash : List (String × V) → Entry V
  deriving DecidableEq

/-- The store: keyed entries plus per-key TTLs (seconds). -/
structure RedisState (V : Type) where
  entries : List (String × Entry V)
  ttls : List (String × Nat)
  deriving DecidableEq

/-- `EXISTS key`. -/
def RedisState.keyExists {V : Type} (r : RedisState V) (k : String) : Bool :=
  (alookup k r.entries).isSome

/-- `SETNX key value`: set if absent, returning whether the key was set. -/
def RedisState.setnx {V : Type} (r : RedisState V) (k : String) (v : Nat) :
    Bool × RedisState V :=
  if (alookup k r.entries).isSome then (false, r)
  else (true, { r with entries := (k, Entry.int v) :: r.entries })

/-- `DEL key`: remove the entry and its TTL. -/
def RedisState.del {V : Type} (r : RedisState V) (k : String) : RedisState V :=
  { entries := aremove k r.entries, ttls := aremove k r.ttls }

/-- `RENAMENX src dst`: move the entry (and its TTL) only when `dst` is
absent; a missing `src` leaves the store unchanged. -/
def RedisState.renamenx {V : Type} (r : RedisState V) (src dst : String) :
    RedisState V :=
  match alookup src r.entries with
  | none => r
  | some e =>
    if (alookup dst r.entries).isSome then r
    else
      { entries := aset dst e (aremove src r.entries),
        ttls := match alookup src r.ttls with
                | some t => aset dst t (aremove src r.ttls)
                | none => r.ttls }

/-- `EXPIRE key secs`: set the TTL of an existing key. -/
def RedisState.expire {V : Type} (r : RedisState V) (k : String) (secs : Nat) :
    RedisState V :=
  if r.keyExists k then { r with ttls := aset k secs r.ttls } else r

/-- `HSET key field value`: creates the hash when absent. -/
def RedisState.hset {V : Type} (r : RedisState V) (k f : String) (v : V) :
    RedisState V :=
  match alookup k r.entries with
  | some (Entry.hash h) =>
      { r with entries := aset k (Entry.hash (aset f v h)) r.entries }
  | some (Entry.int _) => r
  | none => { r with entries := aset k (Entry.hash [(f, v)]) r.entries }

/-- `HGET key field`. -/
def RedisState.hget {V : Type} (r : RedisState V) (k f : String) : Option V :=
  match alookup k r.entries with
  | some (Entry.hash h) => alookup f h
  | _ => none

/-- `HDEL key field`: Redis removes the key entirely when its hash empties. -/
def RedisState.hdel {V : Type} (r : RedisState V) (k f : String) : RedisState V :=
  match alookup k r.entries with
  | some (Entry.hash h) =>
      let h' := aremove f h
      if h'.isEmpty then r.del k
      else { r with entries := aset k (Entry.hash h') r.entries }
  | _ => r

/-- `HEXISTS key field`. -/
def RedisState.hexists {V : Type} (r : RedisState V) (k f : String) : Bool :=
  (r.hget k f).isSome

/-! ## Session state -/

/-- A store command, as recorded in the trace of issued operations.
Commands batched in a `redis.pipeline()` and run by `execute()` appear as a
single `pipe` entry holding the batched commands in order. -/
inductive RCmd where
  | setnx (k : String)
  | rexists (k : String)
  | del (k : String)
  | renamenx (src dst : String)
  | expire (k : String) (secs : Nat)
  | hset (k f : String)
  | hget (k f : String)
  | hdel (k f : String)
  | hexists (k f : String)
  deriving DecidableEq

/-- One trace entry: a single immediate command, or the contents of one
pipeline executed with `execute()`. -/
inductive TraceItem where
  | cmd (c : RCmd)
  | pipe (cmds : List RCmd)
  deriving DecidableEq

/-- A cookie-side value: an ordinary session value, or the string shadow key
stored under the reserved `shadow_key` field. -/
inductive CVal (V : Type) where
  | val : V → CVal V
  | skey : String → CVal V
  deriving DecidableEq

/-- The combined state of one `ShadowSession` object and its
`ShadowSessionDict` (`session.shadow`), together with the Redis store and
the trace of store commands issued so far.

* `cookie`, `modified`, `permanent` belong to the `SecureCookieSession`
  layer (the cookie-side mapping and its flags);
* `accessed`, `key`, `maxAge` are the `ShadowSessionDict` attributes
  `self.accessed`, `self.key`, `self.max_age`. -/
structure SState (V : Type) where
  cookie : List (String × CVal V)
  modified : Bool
  permanent : Bool
  accessed : Bool
  key : Option String
  maxAge : Option Nat
  redis : RedisState V
  trace : List TraceItem
  deriving DecidableEq

/-- Append one executed immediate store command to the trace. -/
def emit {V : Type} (s : SState V) (c : RCmd) : SState V :=
  { s with trace := s.trace ++ [TraceItem.cmd c] }

/-- Append one executed pipeline to the trace. -/
def emitPipe {V : Type} (s : SState V) (cmds : List RCmd) : SState V :=
  { s with trace := s.trace ++ [TraceItem.pipe cmds] }

/-- `SHADOW_KEY_NAME = "shadow_key"`. -/
def SHADOW_KEY_NAME : String := "shadow_key"

/-- `ShadowSession._force_shadow_fields = frozenset(("_flashes",))`. -/
def forcedShadowFields : List String := ["_flashes"]

/-! ## Cookie-side (`SecureCookieSession`) operations

Modelled from the spec: the cookie collaborator is a plain mapping that
tracks a `modified` flag, set whenever a field changes. -/

/-- Modelled from the spec: cookie-side `__getitem__`/`get` (plain lookup,
no state change relevant to the shadow record). -/
def cookieGet {V : Type} (name : String) (s : SState V) : Option (CVal V) :=
  alookup name s.cookie

/-- Modelled from the spec: cookie-side `__setitem__` (sets `modified`). -/
def cookieSet {V : Type} (name : String) (v : CVal V) (s : SState V) : SState V :=
  { s with cookie := aset name v s.cookie, modified := true }

/-- Modelled from the spec: cookie-side `__delitem__` (sets `modified`). -/
def cookieDel {V : Type} (name : String) (s : SState V) : SState V :=
  { s with cookie := aremove name s.cookie, modified := true }

/-- Modelled from the spec: cookie-side `pop` with a default of `none`
(werkzeug's update-tracking dict flags `modified` on every `pop` call). -/
def cookiePop {V : Type} (name : String) (s : SState V) :
    Option (CVal V) × SState V :=
  match alookup name s.cookie with
  | some v => (some v, { s with cookie := aremove name s.cookie, modified := true })
  | none => (none, { s with modified := true })

/-! ## `ShadowSessionDict` -/

namespace ShadowSessionDict

/-- `ShadowSessionDict.open_session(self, session, redis, max_age)`.

The two `isinstance` checks are modelled by the boolean arguments
`sessionOk` (the `session` argument is a `ShadowSession`) and `redisOk`
(the `redis` argument is a `Redis` connection).  On failure a `TypeError`
is raised before anything else happens; the error carries the state at the
raise point so that "no store I/O before the error" is expressible.
On success: `accessed := False`, `key := session.get(SHADOW_KEY_NAME, None)`,
`max_age := max_age`. -/
def open_session {V : Type} (sessionOk redisOk : Bool) (maxAge : Option Nat)
    (s : SState V) : Except (String × SState V) (SState V) :=
  if !sessionOk then
    Except.error ("session instance expected type ShadowSession", s)
  else if !redisOk then
    Except.error ("redis instance expected type Redis", s)
  else
    Except.ok { s with
      accessed := false
      maxAge := maxAge
      key := match alookup SHADOW_KEY_NAME s.cookie with
             | some (CVal.skey k) => some k
             | _ => none }

/-- One iteration of the key-generation loop of `_create_hash`: generate
`possible_key = gen i`, `SETNX` the `-reserved` marker, and on success
check the candidate itself; returns the accepted
`(possible_key, reserve_key)` pair or `none` to retry. -/
def attemptOnce {V : Type} (gen : Nat → String) (i : Nat) (s : SState V) :
    Option (String × String) × SState V :=
  let possible_key := gen i
  let reserve_key := possible_key ++ "-reserved"
  let r := s.redis.setnx reserve_key 1
  let s1 := emit { s with redis := r.2 } (RCmd.setnx reserve_key)
  if r.1 then
    let ex := s1.redis.keyExists possible_key
    let s2 := emit s1 (RCmd.rexists possible_key)
    if ex then
      (none, emit { s2 with redis := s2.redis.del reserve_key } (RCmd.del reserve_key))
    else
      (some (possible_key, reserve_key), s2)
  else
    (none, s1)

/-- The `for _ in range(100)` loop of `_create_hash`, with the attempt
index `i` and the remaining `fuel` made explicit (`fuel = 100 - i`). -/
def createLoopGo {V : Type} (gen : Nat → String) (i fuel : Nat) (s : SState V) :
    Option (String × String) × SState V :=
  match fuel with
  | 0 => (none, s)
  | fuel' + 1 =>
    match attemptOnce gen i s with
    | (some r, s') => (some r, s')
    | (none, s') => createLoopGo gen (i + 1) fuel' s'

/-- `ShadowSessionDict._create_hash`.  The candidate generator
`self._generate_key()` of the `RedisDict` base class is random; it is
modelled by the oracle `gen`, attempt `i` drawing candidate `gen i`.
After the loop: raise `ValueError` when no key was accepted; otherwise run
`createHashFinish`. -/
def createHashFinish {V : Type} (new_key reserve_key : String) (s1 : SState V) :
    String × SState V :=
  let branch : List RCmd × SState V :=
    match s1.key with
    | none => ([], { s1 with key := some new_key })
    | some old =>
        ([RCmd.renamenx old new_key],
         { s1 with key := some new_key, redis := s1.redis.renamenx old new_key })
  let s2 := branch.2
  let ecmds : List RCmd :=
    match s2.maxAge with
    | some a => [RCmd.expire new_key a]
    | none => []
  let s3 : SState V :=
    match s2.maxAge with
    | some a => { s2 with redis := s2.redis.expire new_key a }
    | none => s2
  let s4 := { s3 with redis := s3.redis.del reserve_key }
  let s5 := emitPipe s4 (branch.1 ++ ecmds ++ [RCmd.del reserve_key])
  (new_key,
   { s5 with
     cookie := aset SHADOW_KEY_NAME (CVal.skey new_key) s5.cookie
     modified := true })

def _create_hash {V : Type} (gen : Nat → String) (s : SState V) :
    Except String (String × SState V) :=
  match createLoopGo gen 0 100 s with
  | (none, _) =>
      Except.error "Failed to generate unique shadow session key in 100 attempts."
  | (some (new_key, reserve_key), s1) =>
      Except.ok (createHashFinish new_key reserve_key s1)

/-- `ShadowSessionDict.regenerate_key` = `self._create_hash()`. -/
def regenerate_key {V : Type} (gen : Nat → String) (s : SState V) :
    Except String (String × SState V) :=
  _create_hash gen s

/-- The `_check_state` override: when `self.key is None`, create the hash
key (the lazy-materialization point run before every field operation);
returns the current key together with the updated state. -/
def ensureKey {V : Type} (gen : Nat → String) (s : SState V) :
    Except String (String × SState V) :=
  match s.key with
  | some k => Except.ok (k, s)
  | none => _create_hash gen s

/-- `ShadowSessionDict.__getitem__`: sets `accessed` and the session's
`modified`, ensures a key, then reads the field.  The base-class read is
modelled from the spec as a hash-field get against the store. -/
def getItem {V : Type} (gen : Nat → String) (name : String) (s : SState V) :
    Except String (Option V × SState V) :=
  (ensureKey gen { s with accessed := true, modified := true }).map
    (fun p => (p.2.redis.hget p.1 name, emit p.2 (RCmd.hget p.1 name)))

/-- `ShadowSessionDict.__setitem__`: sets `accessed` and the session's
`modified`, ensures a key, then writes the field (hash-field set). -/
def setItem {V : Type} (gen : Nat → String) (name : String) (v : V)
    (s : SState V) : Except String (SState V) :=
  (ensureKey gen { s with accessed := true, modified := true }).map
    (fun p => emit { p.2 with redis := p.2.redis.hset p.1 name v }
      (RCmd.hset p.1 name))

/-- `ShadowSessionDict.__delitem__`: sets `accessed` and the session's
`modified`, ensures a key, then deletes the field (hash-field delete). -/
def delItem {V : Type} (gen : Nat → String) (name : String) (s : SState V) :
    Except String (SState V) :=
  (ensureKey gen { s with accessed := true, modified := true }).map
    (fun p => emit { p.2 with redis := p.2.redis.hdel p.1 name }
      (RCmd.hdel p.1 name))

/-- Modelled from the spec: the base-class `__contains__` (not overridden by
`ShadowSessionDict`, hence no `accessed`/`modified` update): ensure a key,
then a hash-field existence check against the store. -/
def containsItem {V : Type} (gen : Nat → String) (name : String) (s : SState V) :
    Except String (Bool × SState V) :=
  (ensureKey gen s).map
    (fun p => (p.2.redis.hexists p.1 name, emit p.2 (RCmd.hexists p.1 name)))

/-- Modelled from the spec: dict-style `pop` over the record, realized via
the overridden item operations (get the field, delete it when present,
return `none` as the default when absent). -/
def popItem {V : Type} (gen : Nat → String) (name : String) (s : SState V) :
    Except String (Option V × SState V) :=
  match getItem gen name s with
  | Except.error e => Except.error e
  | Except.ok (some v, s1) =>
      (delItem gen name s1).map (fun s2 => (some v, s2))
  | Except.ok (none, s1) => Except.ok (none, s1)

/-- `ShadowSessionDict.exists`: the base-class check is modelled from the
spec as a store existence check on the current key (`false` without any
store call when no key is held).  When the record is absent, the
`shadow_key` field is removed from the cookie-side session (when present)
and `self.key` is reset to `None`. -/
def existsRecord {V : Type} (s : SState V) : Bool × SState V :=
  let base : Bool × SState V :=
    match s.key with
    | none => (false, s)
    | some k => (s.redis.keyExists k, emit s (RCmd.rexists k))
  let rv := base.1
  let s1 :=
    if !rv && (alookup SHADOW_KEY_NAME base.2.cookie).isSome then
      cookieDel SHADOW_KEY_NAME base.2
    else base.2
  if !rv then (rv, { s1 with key := none }) else (rv, s1)

/-- `ShadowSessionDict.delete`: the base-class delete is modelled from the
spec as removing the record from the store (no store call when no key is
held); then the `shadow_key` field is removed from the cookie-side session
(when present) and `self.key` is reset to `None`. -/
def deleteRecord {V : Type} (s : SState V) : SState V :=
  let s0 :=
    match s.key with
    | none => s
    | some k => emit { s with redis := s.redis.del k } (RCmd.del k)
  let s1 :=
    if (alookup SHADOW_KEY_NAME s0.cookie).isSome then
      cookieDel SHADOW_KEY_NAME s0
    else s0
  { s1 with key := none }

/-- `ShadowSessionDict.save_session`: a no-op unless `self.accessed is True`
and `self.key is not None`; otherwise one pipeline holding the
`_on_save_session` hook commands (none in this class) and, when `max_age`
is set, an `EXPIRE` of the key to `max_age`. -/
def save_session {V : Type} (s : SState V) : SState V :=
  match s.key with
  | none => s
  | some k =>
    if s.accessed then
      let cmds : List RCmd :=
        match s.maxAge with
        | some a => [RCmd.expire k a]
        | none => []
      let r' : RedisState V :=
        match s.maxAge with
        | some a => s.redis.expire k a
        | none => s.redis
      emitPipe { s with redis := r' } cmds
    else s

end ShadowSessionDict

/-! ## `ShadowSession`: the per-field routing facade -/

namespace ShadowSession

/-- `ShadowSession.__getitem__`: route to the shadow record when the name is
in `_force_shadow_fields`, else to the inherited cookie-side mapping.
Shadow-side values are injected into the cookie value type with `CVal.val`
so both branches return the same type. -/
def getItem {V : Type} (gen : Nat → String) (name : String) (s : SState V) :
    Except String (Option (CVal V) × SState V) :=
  if name ∈ forcedShadowFields then
    (ShadowSessionDict.getItem gen name s).map
      (fun p => (p.1.map CVal.val, p.2))
  else
    Except.ok (cookieGet name s, s)

/-- `ShadowSession.__setitem__`: route per `_force_shadow_fields`. -/
def setItem {V : Type} (gen : Nat → String) (name : String) (v : V)
    (s : SState V) : Except String (SState V) :=
  if name ∈ forcedShadowFields then
    ShadowSessionDict.setItem gen name v s
  else
    Except.ok (cookieSet name (CVal.val v) s)

/-- `ShadowSession.__delitem__`: route per `_force_shadow_fields`. -/
def delItem {V : Type} (gen : Nat → String) (name : String) (s : SState V) :
    Except String (SState V) :=
  if name ∈ forcedShadowFields then
    ShadowSessionDict.delItem gen name s
  else
    Except.ok (cookieDel name s)

/-- `ShadowSession.__contains__`: route per `_force_shadow_fields`. -/
def containsItem {V : Type} (gen : Nat → String) (name : String) (s : SState V) :
    Except String (Bool × SState V) :=
  if name ∈ forcedShadowFields then
    ShadowSessionDict.containsItem gen name s
  else
    Except.ok ((alookup name s.cookie).isSome, s)

/-- `ShadowSession.pop`: route per `_force_shadow_fields`. -/
def popItem {V : Type} (gen : Nat → String) (name : String) (s : SState V) :
    Except String (Option (CVal V) × SState V) :=
  if name ∈ forcedShadowFields then
    (ShadowSessionDict.popItem gen name s).map
      (fun p => (p.1.map CVal.val, p.2))
  else
    Except.ok (cookiePop name s)

end ShadowSession

/-! ## `ShadowSessionInterface` (the lifecycle coordinator) -/

namespace ShadowSessionInterface

/-- `ShadowSessionInterface.open_session(self, app, request)`.

The base-class cookie decoding (`super().open_session(app, request)`) is
modelled from the spec by the `decoded` argument: `none` when decoding
yields nothing, otherwise the decoded session state.  `ifaceMaxAge` is the
instance attribute `self.max_age` (initialized to `None`), `lifetime` is
`total_seconds(app.permanent_session_lifetime)`, and `redisOk` says
whether the class-level `self.redis` is a `Redis` connection.  The source
computes `max_age = self.max_age or total_seconds(...)`, Python truthiness
making a configured value of `0` fall back to the lifetime. -/
def open_session {V : Type} (decoded : Option (SState V))
    (ifaceMaxAge : Option Nat) (lifetime : Nat) (redisOk : Bool) :
    Except (String × SState V) (Option (SState V)) :=
  match decoded with
  | none => Except.ok none
  | some s =>
    let s1 := { s with permanent := false }
    let max_age : Nat :=
      match ifaceMaxAge with
      | some n => if n = 0 then lifetime else n
      | none => lifetime
    (ShadowSessionDict.open_session true redisOk (some max_age) s1).map some

end ShadowSessionInterface

/-! ## Acceptance condition of the key-generation loop -/

/-- A candidate `c` is acceptable against store entries `es` exactly when
the `SETNX` of `c ++ "-reserved"` would succeed (the marker is absent) and
`c` itself does not exist in the store. -/
def accepts {V : Type} (es : List (String × Entry V)) (c : String) : Bool :=
  !(alookup (c ++ "-reserved") es).isSome && !(alookup c es).isSome

/-- Index of the first acceptable candidate among `gen i, gen (i+1), ...`
within `fuel` further attempts, judged against fixed store entries `es`. -/
def firstAcceptFrom {V : Type} (es : List (String × Entry V))
    (gen : Nat → String) (i fuel : Nat) : Option Nat :=
  match fuel with
  | 0 => none
  | fuel' + 1 =>
    if accepts es (gen i) then some i else firstAcceptFrom es gen (i + 1) fuel'

/-! ## The record's operation sequences (for the `key` invariant) -/

/-- One operation applied to an opened session, as used to state the
lifecycle invariant on `key`. -/
inductive Step (V : Type) where
  | getF (name : String)
  | setF (name : String) (v : V)
  | delF (name : String)
  | existsCk
  | deleteRec
  | save
  | regen
  deriving DecidableEq

/-- Apply one operation (shadow-record field access, `exists`, `delete`,
`save_session`, or `regenerate_key`) to the state; a raised
key-generation error aborts the run. -/
def stepRun {V : Type} (gen : Nat → String) (s : SState V) :
    Step V → Except String (SState V)
  | Step.getF name => (ShadowSessionDict.getItem gen name s).map (fun p => p.2)
  | Step.setF name v => ShadowSessionDict.setItem gen name v s
  | Step.delF name => ShadowSessionDict.delItem gen name s
  | Step.existsCk => Except.ok (ShadowSessionDict.existsRecord s).2
  | Step.deleteRec => Except.ok (ShadowSessionDict.deleteRecord s)
  | Step.save => Except.ok (ShadowSessionDict.save_session s)
  | Step.regen => (ShadowSessionDict.regenerate_key gen s).map (fun p => p.2)

/-- Ghost history of the record: whether a key was ever materialized for
the (logical) session, and whether the record was detected missing,
expired, or deleted in the store since the last materialization. -/
structure Ghost where
  materialized : Bool
  healed : Bool
  deriving DecidableEq

/-- Ghost transition mirroring the history reading of each operation:
field access (and explicit regeneration) materializes a key and clears the
healed flag; a failed `exists` check or a `delete` records the record as
gone; `save` observes only. -/
def ghostStep {V : Type} (s : SState V) (g : Ghost) : Step V → Ghost
  | Step.getF _ => { materialized := true, healed := false }
  | Step.setF _ _ => { materialized := true, healed := false }
  | Step.delF _ => { materialized := true, healed := false }
  | Step.existsCk =>
      if (ShadowSessionDict.existsRecord s).1 then g else { g with healed := true }
  | Step.deleteRec => { g with healed := true }
  | Step.save => g
  | Step.regen => { materialized := true, healed := false }

/-- Run a sequence of operations, tracking the ghost history alongside. -/
def runGhost {V : Type} (gen : Nat → String) :
    List (Step V) → SState V × Ghost → Except String (SState V × Ghost)
  | [], p => Except.ok p
  | st :: rest, p =>
    match stepRun gen p.1 st with
    | Except.error e => Except.error e
    | Except.ok s' => runGhost gen rest (s', ghostStep p.1 p.2 st)

/-- The stated invariant: the record holds no key exactly when no field was
ever materialized for the session, or the record was since detected
missing, expired, or deleted. -/
def KeyInv {V : Type} (s : SState V) (g : Ghost) : Prop :=
  s.key = none ↔ (g.materialized = false ∨ g.healed = true)

/-- The ghost state right after `open_session`: materialized exactly when a
`shadow_key` came in with the cookie, nothing healed yet. -/
def ghostInit {V : Type} (s : SState V) : Ghost :=
  { materialized := s.key.isSome, healed := false }

/-- The net effect of the `_create_hash` pipeline on the store entries,
starting from entries `E` with previous key `prevKey` and accepted
candidate `newKey` (whose reservation marker is deleted again at the end):
with no previous key nothing is renamed (the `_on_create_hash` hook of this
class issues no commands), otherwise the previous record is renamed to
`newKey` when it exists. -/
def createHashEntries {V : Type} (E : List (String × Entry V))
    (prevKey : Option String) (newKey : String) : List (String × Entry V) :=
  match prevKey with
  | none => E
  | some old =>
    match alookup old E with
    | none => E
    | some e => aset newKey e (aremove old E)

/-- The commands batched into the `_create_hash` pipeline. -/
def createHashPipe (prevKey : Option String) (maxAge : Option Nat)
    (newKey : String) : List RCmd :=
  (match prevKey with
   | none => []
   | some old => [RCmd.renamenx old newKey]) ++
  (match maxAge with
   | some a => [RCmd.expire newKey a]
   | none => []) ++
  [RCmd.del (newKey ++ "-reserved")]

/-! ## Concrete fixtures used by the witness theorems -/

/-- A concrete key-generation oracle producing the same fresh candidate on
every attempt. -/
def genA : Nat → String := fun _ => "newkey"

/-- A freshly opened session over an empty store: no cookie fields, no key
yet, a 60-second TTL. -/
def sEmpty : SState Nat :=
  { cookie := [], modified := false, permanent := false, accessed := false,
    key := none, maxAge := some 60,
    redis := { entries := [], ttls := [] }, trace := [] }

/-- A session holding key `"old"` whose record stores field `"f" = 7`,
with the key carried in the cookie. -/
def sOld : SState Nat :=
  { cookie := [("shadow_key", CVal.skey "old")], modified := false,
    permanent := false, accessed := false, key := some "old",
    maxAge := some 60,
    redis := { entries := [("old", Entry.hash [("f", 7)])], ttls := [] },
    trace := [] }

/-- A session whose cookie still names key `"old"` but whose record has
expired from the store. -/
def sGone : SState Nat :=
  { cookie := [("shadow_key", CVal.skey "old")], modified := false,
    permanent := false, accessed := false, key := some "old",
    maxAge := some 60, redis := { entries := [], ttls := [] }, trace := [] }

/-! ## Lemmas about the key-generation loop -/

/-- A candidate key never equals its own reservation marker. -/
theorem candidate_ne_reserve (c : String) : c ≠ c ++ "-reserved" := by
  intro h
  have hl := congrArg String.length h
  rw [String.length_append] at hl
  have h9 : "-reserved".length = 9 := rfl
  omega

theorem reserve_ne_candidate (c : String) : c ++ "-reserved" ≠ c :=
  Ne.symm (candidate_ne_reserve c)

namespace ShadowSessionDict

/-- One attempt when the reservation marker is already held: `SETNX` fails
and the attempt retries with nothing else done. -/
theorem attemptOnce_reserved {V : Type} (gen : Nat → String) (i : Nat)
    (s : SState V) (h : (alookup (gen i ++ "-reserved") s.redis.entries).isSome) :
    attemptOnce gen i s = (none, emit s (RCmd.setnx (gen i ++ "-reserved"))) := by
  simp [attemptOnce, RedisState.setnx, h]

/-- One attempt when the reservation succeeds but the candidate key already
exists: the reservation is deleted and the attempt retries; the store
entries are restored exactly. -/
theorem attemptOnce_taken {V : Type} (gen : Nat → String) (i : Nat)
    (s : SState V) (hres : alookup (gen i ++ "-reserved") s.redis.entries = none)
    (hex : (alookup (gen i) s.redis.entries).isSome) :
    (attemptOnce gen i s).1 = none ∧
    (attemptOnce gen i s).2.redis.entries = s.redis.entries ∧
    (attemptOnce gen i s).2.key = s.key ∧
    (attemptOnce gen i s).2.cookie = s.cookie ∧
    (attemptOnce gen i s).2.accessed = s.accessed ∧
    (attemptOnce gen i s).2.maxAge = s.maxAge ∧
    (attemptOnce gen i s).2.modified = s.modified ∧
    (attemptOnce gen i s).2.permanent = s.permanent := by
  have hne : gen i ++ "-reserved" ≠ gen i := reserve_ne_candidate (gen i)
  simp [attemptOnce, RedisState.setnx, hres, RedisState.keyExists, emit,
    RedisState.del, alookup, hne, hex,
    aremove_cons_of_eq (α := Entry V) (Entry.int 1) rfl,
    aremove_of_alookup_none hres]

/-- One attempt on an acceptable candidate: the candidate is returned with
its reservation marker, which stays in the store. -/
theorem attemptOnce_accepted {V : Type} (gen : Nat → String) (i : Nat)
    (s : SState V) (hres : alookup (gen i ++ "-reserved") s.redis.entries = none)
    (hex : alookup (gen i) s.redis.entries = none) :
    (attemptOnce gen i s).1 = some (gen i, gen i ++ "-reserved") ∧
    (attemptOnce gen i s).2.redis.entries =
      (gen i ++ "-reserved", Entry.int 1) :: s.redis.entries ∧
    (attemptOnce gen i s).2.redis.ttls = s.redis.ttls ∧
    (attemptOnce gen i s).2.key = s.key ∧
    (attemptOnce gen i s).2.cookie = s.cookie ∧
    (attemptOnce gen i s).2.accessed = s.accessed ∧
    (attemptOnce gen i s).2.maxAge = s.maxAge ∧
    (attemptOnce gen i s).2.modified = s.modified ∧
    (attemptOnce gen i s).2.permanent = s.permanent := by
  have hne : gen i ++ "-reserved" ≠ gen i := reserve_ne_candidate (gen i)
  simp [attemptOnce, RedisState.setnx, hres, RedisState.keyExists, emit,
    alookup, hne, hex]

/-- The loop returns exactly the first acceptable candidate (judged against
the store entries the loop started from), and restores the store entries
when it exhausts its attempts. -/
theorem createLoopGo_main {V : Type} (gen : Nat → String) :
    ∀ (fuel i : Nat) (s : SState V),
      (createLoopGo gen i fuel s).1 =
        (firstAcceptFrom s.redis.entries gen i fuel).map
          (fun j => (gen j, gen j ++ "-reserved")) ∧
      (firstAcceptFrom s.redis.entries gen i fuel = none →
        (createLoopGo gen i fuel s).2.redis.entries = s.redis.entries) := by
  intro fuel
  induction fuel with
  | zero => intro i s; simp [createLoopGo, firstAcceptFrom]
  | succ fuel ih =>
    intro i s
    by_cases hres : (alookup (gen i ++ "-reserved") s.redis.entries).isSome
    · have hacc : accepts s.redis.entries (gen i) = false := by
        simp [accepts, hres]
      have ha := attemptOnce_reserved gen i s hres
      have hent : (emit s (RCmd.setnx (gen i ++ "-reserved"))).redis.entries =
          s.redis.entries := rfl
      constructor
      · simp only [createLoopGo, ha, firstAcceptFrom, hacc, if_false]
        rw [(ih (i + 1) _).1, hent]
        simp
      · intro hnone
        simp only [firstAcceptFrom, hacc, if_false] at hnone
        simp only [Bool.false_eq_true, if_false] at hnone
        simp only [createLoopGo, ha]
        rw [(ih (i + 1) _).2, hent]
        rw [hent]
        exact hnone
    · have hres' : alookup (gen i ++ "-reserved") s.redis.entries = none := by
        cases hl : alookup (gen i ++ "-reserved") s.redis.entries with
        | none => rfl
        | some v => rw [hl] at hres; simp at hres
      by_cases hex : (alookup (gen i) s.redis.entries).isSome
      · have hacc : accepts s.redis.entries (gen i) = false := by
          simp [accepts, hex]
        obtain ⟨h1, h2, _⟩ := attemptOnce_taken gen i s hres' hex
        constructor
        · simp only [createLoopGo, firstAcceptFrom, hacc, if_false]
          cases hA : attemptOnce gen i s with
          | mk r s' =>
            rw [hA] at h1 h2
            simp only at h1 h2
            subst h1
            simp only
            rw [(ih (i + 1) s').1, h2]
            simp
        · intro hnone
          simp only [firstAcceptFrom, hacc, if_false] at hnone
          simp only [Bool.false_eq_true, if_false] at hnone
          cases hA : attemptOnce gen i s with
          | mk r s' =>
            rw [hA] at h1 h2
            simp only at h1 h2
            subst h1
            simp only [createLoopGo, hA]
            rw [(ih (i + 1) s').2, h2]
            rw [h2]
            exact hnone
      · have hex' : alookup (gen i) s.redis.entries = none := by
          cases hl : alookup (gen i) s.redis.entries with
          | none => rfl
          | some v => rw [hl] at hex; simp at hex
        have hacc : accepts s.redis.entries (gen i) = true := by
          simp [accepts, hres', hex']
        obtain ⟨h1, _⟩ := attemptOnce_accepted gen i s hres' hex'
        constructor
        · simp only [createLoopGo, firstAcceptFrom, hacc, if_true]
          cases hA : attemptOnce gen i s with
          | mk r s' =>
            rw [hA] at h1
            simp only at h1
            subst h1
            simp
        · intro hnone
          simp [firstAcceptFrom, hacc] at hnone

/-- On a successful search the loop returns the first acceptable candidate
and leaves the store with exactly the reservation marker added; every other
component of the session state except the trace is untouched. -/
theorem createLoopGo_success {V : Type} (gen : Nat → String) :
    ∀ (fuel i : Nat) (s : SState V) (j : Nat),
      firstAcceptFrom s.redis.entries gen i fuel = some j →
      ∃ s1, createLoopGo gen i fuel s = (some (gen j, gen j ++ "-reserved"), s1) ∧
        s1.redis.entries = (gen j ++ "-reserved", Entry.int 1) :: s.redis.entries ∧
        s1.key = s.key ∧ s1.cookie = s.cookie ∧ s1.accessed = s.accessed ∧
        s1.maxAge = s.maxAge ∧ s1.modified = s.modified ∧
        s1.permanent = s.permanent ∧ ∃ tl, s1.trace = s.trace ++ tl := by
  intro fuel
  induction fuel with
  | zero => intro i s j h; simp [firstAcceptFrom] at h
  | succ fuel ih =>
    intro i s j h
    by_cases hacc : accepts s.redis.entries (gen i) = true
    · have hj : j = i := by
        simp only [firstAcceptFrom, hacc, if_true] at h
        exact (Option.some_inj.mp h).symm
      subst hj
      have hres' : alookup (gen j ++ "-reserved") s.redis.entries = none := by
        simp only [accepts, Bool.and_eq_true, Bool.not_eq_true'] at hacc
        exact Option.not_isSome_iff_eq_none.mp (by simp [hacc.1])
      have hex' : alookup (gen j) s.redis.entries = none := by
        simp only [accepts, Bool.and_eq_true, Bool.not_eq_true'] at hacc
        exact Option.not_isSome_iff_eq_none.mp (by simp [hacc.2])
      obtain ⟨h1, h2, _, h4, h5, h6, h7, h8, h9⟩ :=
        attemptOnce_accepted gen j s hres' hex'
      cases hA : attemptOnce gen j s with
      | mk r s' =>
        rw [hA] at h1 h2 h4 h5 h6 h7 h8 h9
        simp only at h1 h2 h4 h5 h6 h7 h8 h9
        subst h1
        refine ⟨s', ?_, h2, h4, h5, h6, h7, h8, h9, ?_⟩
        · simp [createLoopGo, hA]
        · refine ⟨[RCmd.setnx (gen j ++ "-reserved"), RCmd.rexists (gen j)].map
            TraceItem.cmd, ?_⟩
          have : s' = (attemptOnce gen j s).2 := by rw [hA]
          subst this
          simp [attemptOnce, RedisState.setnx, hres', emit,
            RedisState.keyExists, alookup, reserve_ne_candidate (gen j), hex']
    · have hacc' : accepts s.redis.entries (gen i) = false := by
        cases hb : accepts s.redis.entries (gen i) with
        | false => rfl
        | true => exact absurd hb hacc
      have h' : firstAcceptFrom s.redis.entries gen (i + 1) fuel = some j := by
        simpa [firstAcceptFrom, hacc'] using h
      by_cases hres : (alookup (gen i ++ "-reserved") s.redis.entries).isSome
      · have ha := attemptOnce_reserved gen i s hres
        have hent : (emit s (RCmd.setnx (gen i ++ "-reserved"))).redis.entries =
            s.redis.entries := rfl
        obtain ⟨s1, hrun, he, hk, hc, hac, hma, hmo, hpe, tl, htl⟩ :=
          ih (i + 1) (emit s (RCmd.setnx (gen i ++ "-reserved")))
            j (by rw [hent]; exact h')
        refine ⟨s1, ?_, by rw [he, hent], hk, hc, hac, hma, hmo, hpe,
          TraceItem.cmd (RCmd.setnx (gen i ++ "-reserved")) :: tl, ?_⟩
        · simp only [createLoopGo, ha]
          exact hrun
        · rw [htl]; simp [emit]
      · have hres' : alookup (gen i ++ "-reserved") s.redis.entries = none := by
          cases hl : alookup (gen i ++ "-reserved") s.redis.entries with
          | none => rfl
          | some v => rw [hl] at hres; simp at hres
        have hex : (alookup (gen i) s.redis.entries).isSome := by
          simp only [accepts, hres'] at hacc'
          simp only [Option.isSome_none, Bool.not_false, Bool.true_and,
            Bool.not_eq_false'] at hacc'
          exact hacc'
        obtain ⟨h1, h2, hk0, hc0, hac0, hma0, hmo0, hpe0⟩ :=
          attemptOnce_taken gen i s hres' hex
        cases hA : attemptOnce gen i s with
        | mk r s' =>
          rw [hA] at h1 h2 hk0 hc0 hac0 hma0 hmo0 hpe0
          simp only at h1 h2 hk0 hc0 hac0 hma0 hmo0 hpe0
          subst h1
          obtain ⟨s1, hrun, he, hk, hc, hac, hma, hmo, hpe, tl, htl⟩ :=
            ih (i + 1) s' j (by rw [h2]; exact h')
          have htr : ∃ tl0, s'.trace = s.trace ++ tl0 := by
            have : s' = (attemptOnce gen i s).2 := by rw [hA]
            subst this
            refine ⟨[TraceItem.cmd (RCmd.setnx (gen i ++ "-reserved")),
              TraceItem.cmd (RCmd.rexists (gen i)),
              TraceItem.cmd (RCmd.del (gen i ++ "-reserved"))], ?_⟩
            simp [attemptOnce, RedisState.setnx, hres', emit,
              RedisState.keyExists, alookup, reserve_ne_candidate (gen i), hex]
          obtain ⟨tl0, htl0⟩ := htr
          refine ⟨s1, ?_, by rw [he, h2], by rw [hk, hk0], by rw [hc, hc0],
            by rw [hac, hac0], by rw [hma, hma0], by rw [hmo, hmo0],
            by rw [hpe, hpe0], tl0 ++ tl, ?_⟩
          · simp only [createLoopGo, hA]
            exact hrun
          · rw [htl, htl0, List.append_assoc]

end ShadowSessionDict

/-- A successful candidate search identifies the least acceptable index. -/
theorem firstAcceptFrom_spec {V : Type} {es : List (String × Entry V)}
    {gen : Nat → String} :
    ∀ {fuel i j : Nat}, firstAcceptFrom es gen i fuel = some j →
      i ≤ j ∧ j < i + fuel ∧ accepts es (gen j) = true ∧
      ∀ m, i ≤ m → m < j → accepts es (gen m) = false := by
  intro fuel
  induction fuel with
  | zero => intro i j h; simp [firstAcceptFrom] at h
  | succ fuel ih =>
    intro i j h
    by_cases hacc : accepts es (gen i) = true
    · simp only [firstAcceptFrom, hacc, if_true, Option.some_inj] at h
      subst h
      exact ⟨Nat.le_refl _, by omega, hacc, fun m h1 h2 => by omega⟩
    · have hacc' : accepts es (gen i) = false := by
        cases hb : accepts es (gen i) with
        | false => rfl
        | true => exact absurd hb hacc
      simp only [firstAcceptFrom, hacc', Bool.false_eq_true, if_false] at h
      obtain ⟨h1, h2, h3, h4⟩ := ih h
      refine ⟨by omega, by omega, h3, fun m hm1 hm2 => ?_⟩
      rcases Nat.eq_or_lt_of_le hm1 with rfl | hlt
      · exact hacc'
      · exact h4 m hlt hm2

/-- An exhausted candidate search means no acceptable index in range. -/
theorem firstAcceptFrom_none_iff {V : Type} {es : List (String × Entry V)}
    {gen : Nat → String} :
    ∀ {fuel i : Nat}, firstAcceptFrom es gen i fuel = none ↔
      ∀ m, i ≤ m → m < i + fuel → accepts es (gen m) = false := by
  intro fuel
  induction fuel with
  | zero => intro i; simp [firstAcceptFrom]; intro m h1 h2; omega
  | succ fuel ih =>
    intro i
    by_cases hacc : accepts es (gen i) = true
    · simp only [firstAcceptFrom, hacc, if_true]
      constructor
      · intro h; exact absurd h (by simp)
      · intro h
        have := h i (Nat.le_refl _) (by omega)
        rw [hacc] at this
        exact absurd this (by simp)
    · have hacc' : accepts es (gen i) = false := by
        cases hb : accepts es (gen i) with
        | false => rfl
        | true => exact absurd hb hacc
      simp only [firstAcceptFrom, hacc', Bool.false_eq_true, if_false]
      rw [ih]
      constructor
      · intro h m hm1 hm2
        rcases Nat.eq_or_lt_of_le hm1 with rfl | hlt
        · exact hacc'
        · exact h m hlt (by omega)
      · intro h m hm1 hm2
        exact h m (by omega) (by omega)

namespace ShadowSessionDict

/-- The post-loop stage of `_create_hash` on a state whose store holds the
fresh reservation marker on top of entries `E`, with the accepted candidate
`nk` absent from `E`, its marker absent from `E`, and the previous key (if
any) not itself the reservation marker: it returns `nk`, adopts it as the
current key, writes it to the cookie under `shadow_key`, marks the session
modified, leaves `accessed`/`max_age`/`permanent` untouched, leaves the
store entries as `createHashEntries`, and appends exactly one pipeline to
the trace holding the rename (when a previous key existed), the expiry
(when `max_age` is set) and the deletion of the reservation marker, in
that order. -/
theorem createHashFinish_spec {V : Type} (nk : String) (s1 : SState V)
    (E : List (String × Entry V))
    (hE : s1.redis.entries = (nk ++ "-reserved", Entry.int 1) :: E)
    (hnk : alookup nk E = none)
    (hres : alookup (nk ++ "-reserved") E = none)
    (hold : ∀ old, s1.key = some old → old ≠ nk ++ "-reserved") :
    (createHashFinish nk (nk ++ "-reserved") s1).1 = nk ∧
    (createHashFinish nk (nk ++ "-reserved") s1).2.key = some nk ∧
    (createHashFinish nk (nk ++ "-reserved") s1).2.cookie =
      aset SHADOW_KEY_NAME (CVal.skey nk) s1.cookie ∧
    (createHashFinish nk (nk ++ "-reserved") s1).2.modified = true ∧
    (createHashFinish nk (nk ++ "-reserved") s1).2.accessed = s1.accessed ∧
    (createHashFinish nk (nk ++ "-reserved") s1).2.maxAge = s1.maxAge ∧
    (createHashFinish nk (nk ++ "-reserved") s1).2.permanent = s1.permanent ∧
    (createHashFinish nk (nk ++ "-reserved") s1).2.redis.entries =
      createHashEntries E s1.key nk ∧
    (createHashFinish nk (nk ++ "-reserved") s1).2.trace =
      s1.trace ++ [TraceItem.pipe (createHashPipe s1.key s1.maxAge nk)] := by
  have hrc : nk ++ "-reserved" ≠ nk := reserve_ne_candidate nk
  have hEdel : aremove (nk ++ "-reserved") s1.redis.entries = E := by
    rw [hE, aremove_cons_of_eq _ rfl]
    exact aremove_of_alookup_none hres
  cases hsk : s1.key with
  | none =>
    cases hsa : s1.maxAge with
    | none =>
      simp [createHashFinish, hsk, hsa, emitPipe, RedisState.del, hEdel,
        createHashEntries, createHashPipe]
    | some a =>
      have hkeyex : (s1.redis.expire nk a) = s1.redis := by
        simp [RedisState.expire, RedisState.keyExists, hE, alookup, hrc, hnk]
      simp [createHashFinish, hsk, hsa, emitPipe, RedisState.del, hkeyex,
        hEdel, createHashEntries, createHashPipe]
  | some old =>
    have holdne : old ≠ nk ++ "-reserved" := hold old hsk
    have holdne' : nk ++ "-reserved" ≠ old := Ne.symm holdne
    have hlold : alookup old s1.redis.entries = alookup old E := by
      rw [hE, alookup]
      simp [holdne']
    cases halt : alookup old E with
    | none =>
      have hren : s1.redis.renamenx old nk = s1.redis := by
        simp only [RedisState.renamenx]
        rw [hlold, halt]
      cases hsa : s1.maxAge with
      | none =>
        simp [createHashFinish, hsk, hsa, emitPipe, RedisState.del, hren,
          hEdel, createHashEntries, createHashPipe, halt]
      | some a =>
        have hkeyex : (s1.redis.expire nk a) = s1.redis := by
          simp [RedisState.expire, RedisState.keyExists, hE, alookup, hrc, hnk]
        simp [createHashFinish, hsk, hsa, emitPipe, RedisState.del, hren,
          hkeyex, hEdel, createHashEntries, createHashPipe, halt]
    | some e =>
      have hdst : alookup nk s1.redis.entries = none := by
        rw [hE, alookup]
        simp [hrc, hnk]
      have hren : s1.redis.renamenx old nk =
          { entries := (nk ++ "-reserved", Entry.int 1) ::
              aset nk e (aremove old E),
            ttls := match alookup old s1.redis.ttls with
                    | some t => aset nk t (aremove old s1.redis.ttls)
                    | none => s1.redis.ttls } := by
        simp only [RedisState.renamenx]
        rw [hlold, halt]
        simp only [hdst, Option.isSome_none, Bool.false_eq_true, if_false]
        rw [hE, aremove_cons_ne _ holdne', aset_cons_ne _ _ hrc]
      have hfin : aremove (nk ++ "-reserved")
          ((nk ++ "-reserved", Entry.int 1) :: aset nk e (aremove old E)) =
          aset nk e (aremove old E) := by
        rw [aremove_cons_of_eq _ rfl]
        apply aremove_of_alookup_none
        rw [alookup_aset_ne _ hrc]
        exact alookup_aremove_none hres
      cases hsa : s1.maxAge with
      | none =>
        simp [createHashFinish, hsk, hsa, emitPipe, RedisState.del, hren,
          hfin, createHashEntries, createHashPipe, halt]
      | some a =>
        have hkeyex : ∀ r2 : RedisState V,
            r2.entries = (nk ++ "-reserved", Entry.int 1) ::
              aset nk e (aremove old E) →
            (r2.expire nk a).entries = r2.entries := by
          intro r2 h2
          simp only [RedisState.expire]
          split
          · rfl
          · rfl
        simp only [createHashFinish, hsk, hsa, emitPipe, RedisState.del, hren]
        refine ⟨trivial, trivial, trivial, trivial, trivial, trivial, trivial,
          ?_, ?_⟩
        · simp only [RedisState.expire]
          split
          · simp only [hfin, createHashEntries, hsk, halt]
          · simp only [hfin, createHashEntries, hsk, halt]
        · simp [createHashPipe, hsk, hsa]

/-- Full characterization of a successful `_create_hash`: with `gen j` the
first acceptable candidate within the 100 attempts (and the previous key,
if any, not itself the accepted reservation marker), the call returns
`gen j`, adopts it as the current key, writes it to the cookie under
`shadow_key` (marking the session modified), leaves `accessed`, `max_age`
and `permanent` untouched, leaves the store entries as described by
`createHashEntries`, and—after the loop's reservation traffic—executes
exactly one pipeline holding `createHashPipe`: the rename when a previous
key existed, the expiry when `max_age` is set, and the deletion of the
reservation marker, in that order; no store command follows the pipeline
before the cookie write. -/
theorem create_hash_spec {V : Type} (gen : Nat → String) (s : SState V)
    (j : Nat) (hj : firstAcceptFrom s.redis.entries gen 0 100 = some j)
    (hold : ∀ old, s.key = some old → old ≠ gen j ++ "-reserved") :
    ∃ s2, _create_hash gen s = Except.ok (gen j, s2) ∧
      s2.key = some (gen j) ∧
      s2.cookie = aset SHADOW_KEY_NAME (CVal.skey (gen j)) s.cookie ∧
      s2.modified = true ∧
      s2.accessed = s.accessed ∧
      s2.maxAge = s.maxAge ∧
      s2.permanent = s.permanent ∧
      s2.redis.entries = createHashEntries s.redis.entries s.key (gen j) ∧
      ∃ tl, s2.trace = s.trace ++ tl ++
        [TraceItem.pipe (createHashPipe s.key s.maxAge (gen j))] := by
  obtain ⟨hjl, hju, hacc, hleast⟩ := firstAcceptFrom_spec hj
  have hresn : alookup (gen j ++ "-reserved") s.redis.entries = none := by
    simp only [accepts, Bool.and_eq_true, Bool.not_eq_true'] at hacc
    exact Option.not_isSome_iff_eq_none.mp (by simp [hacc.1])
  have hexn : alookup (gen j) s.redis.entries = none := by
    simp only [accepts, Bool.and_eq_true, Bool.not_eq_true'] at hacc
    exact Option.not_isSome_iff_eq_none.mp (by simp [hacc.2])
  obtain ⟨s1, hrun, he, hk, hc, hac, hma, hmo, hpe, tl0, htl0⟩ :=
    createLoopGo_success gen 100 0 s j hj
  have hold1 : ∀ old, s1.key = some old → old ≠ gen j ++ "-reserved" := by
    intro old h
    exact hold old (by rw [hk] at h; exact h)
  obtain ⟨f1, f2, f3, f4, f5, f6, f7, f8, f9⟩ :=
    createHashFinish_spec (gen j) s1 s.redis.entries he hexn hresn hold1
  refine ⟨(createHashFinish (gen j) (gen j ++ "-reserved") s1).2, ?_, ?_, ?_,
    f4, ?_, ?_, ?_, ?_, ?_⟩
  · simp only [_create_hash, hrun]
    have hpair : createHashFinish (gen j) (gen j ++ "-reserved") s1 =
        (gen j, (createHashFinish (gen j) (gen j ++ "-reserved") s1).2) := by
      rw [← f1]
      exact Prod.mk.eta.symm
    rw [hpair]
  · exact f2
  · rw [f3, hc]
  · rw [f5, hac]
  · rw [f6, hma]
  · rw [f7, hpe]
  · rw [f8, hk]
  · refine ⟨tl0, ?_⟩
    rw [f9, htl0, hk, hma, List.append_assoc]

/-- `_create_hash` raises the `ValueError` exactly when no candidate is
acceptable within the 100 attempts. -/
theorem create_hash_error_iff {V : Type} (gen : Nat → String) (s : SState V) :
    (∃ e, _create_hash gen s = Except.error e) ↔
      firstAcceptFrom s.redis.entries gen 0 100 = none := by
  have h1 := (createLoopGo_main gen 100 0 s).1
  cases hfa : firstAcceptFrom s.redis.entries gen 0 100 with
  | none =>
    rw [hfa] at h1
    simp only [Option.map_none'] at h1
    constructor
    · intro _; rfl
    · intro _
      cases hrun : createLoopGo gen 0 100 s with
      | mk r s1 =>
        rw [hrun] at h1
        simp only at h1
        subst h1
        exact ⟨"Failed to generate unique shadow session key in 100 attempts.",
          by simp [_create_hash, hrun]⟩
  | some j =>
    rw [hfa] at h1
    simp only [Option.map_some'] at h1
    constructor
    · intro he
      obtain ⟨e, he⟩ := he
      cases hrun : createLoopGo gen 0 100 s with
      | mk r s1 =>
        rw [hrun] at h1
        simp only at h1
        subst h1
        simp [_create_hash, hrun] at he
    · intro h
      exact absurd h (by simp [hfa])

/-- The finishing stage always returns the accepted candidate as the
adopted key. -/
theorem createHashFinish_key {V : Type} (nk rk : String) (s1 : SState V) :
    (createHashFinish nk rk s1).1 = nk ∧
    (createHashFinish nk rk s1).2.key = some nk ∧
    (createHashFinish nk rk s1).2.accessed = s1.accessed ∧
    (createHashFinish nk rk s1).2.cookie =
      aset SHADOW_KEY_NAME (CVal.skey nk) s1.cookie := by
  cases hsk : s1.key with
  | none =>
    cases hsa : s1.maxAge with
    | none => simp [createHashFinish, hsk, hsa, emitPipe]
    | some a => simp [createHashFinish, hsk, hsa, emitPipe]
  | some old =>
    cases hsa : s1.maxAge with
    | none => simp [createHashFinish, hsk, hsa, emitPipe]
    | some a => simp [createHashFinish, hsk, hsa, emitPipe]

/-- Any successful `_create_hash` adopts the returned key as current and
does not modify the `accessed` flag. -/
theorem create_hash_ok_key {V : Type} (gen : Nat → String) (s : SState V)
    {k : String} {s2 : SState V} (h : _create_hash gen s = Except.ok (k, s2)) :
    s2.key = some k ∧ s2.accessed = s.accessed ∧
    s2.cookie = aset SHADOW_KEY_NAME (CVal.skey k) s.cookie := by
  unfold _create_hash at h
  cases hrun : createLoopGo gen 0 100 s with
  | mk r s1 =>
    rw [hrun] at h
    cases r with
    | none => simp at h
    | some p =>
      cases p with
      | mk nk rk =>
        simp only [Except.ok.injEq] at h
        have hfst : (createHashFinish nk rk s1).1 = k := by rw [h]
        have hsnd : (createHashFinish nk rk s1).2 = s2 := by rw [h]
        obtain ⟨g1, g2, g3, g4⟩ := createHashFinish_key nk rk s1
        have hk : nk = k := by rw [← g1, hfst]
        subst hk
        have hframe : s1.accessed = s.accessed ∧ s1.cookie = s.cookie := by
          have h1 := (createLoopGo_main gen 100 0 s).1
          cases hfa : firstAcceptFrom s.redis.entries gen 0 100 with
          | none =>
            rw [hfa] at h1
            rw [hrun] at h1
            simp at h1
          | some j =>
            obtain ⟨s1x, hrunx, _, _, hcx, hacx, _⟩ :=
              createLoopGo_success gen 100 0 s j hfa
            rw [hrun] at hrunx
            have hx : s1x = s1 := by
              have := (Prod.mk.injEq _ _ _ _).mp hrunx.symm
              exact this.2
            rw [← hx]
            exact ⟨hacx, hcx⟩
        rw [← hsnd]
        exact ⟨g2, by rw [g3, hframe.1], by rw [g4, hframe.2]⟩

/-- `ensureKey` (the overridden `_check_state`) returns the current key:
the held one, or the freshly created one, which is then adopted. -/
theorem ensureKey_ok_key {V : Type} (gen : Nat → String) {s : SState V}
    {k : String} {s2 : SState V} (h : ensureKey gen s = Except.ok (k, s2)) :
    s2.key = some k := by
  unfold ensureKey at h
  cases hsk : s.key with
  | some k0 =>
    rw [hsk] at h
    simp only [Except.ok.injEq, Prod.mk.injEq] at h
    rw [← h.2, hsk, h.1]
  | none =>
    rw [hsk] at h
    exact (create_hash_ok_key gen s h).1

/-- `ensureKey` either leaves the cookie untouched (a key was already held)
or adds only the `shadow_key` binding written by `_create_hash`. -/
theorem ensureKey_ok_cookie {V : Type} (gen : Nat → String) {s : SState V}
    {k : String} {s2 : SState V} (h : ensureKey gen s = Except.ok (k, s2)) :
    s2.cookie = s.cookie ∨
    s2.cookie = aset SHADOW_KEY_NAME (CVal.skey k) s.cookie := by
  unfold ensureKey at h
  cases hsk : s.key with
  | some k0 =>
    rw [hsk] at h
    simp only [Except.ok.injEq, Prod.mk.injEq] at h
    left
    rw [← h.2]
  | none =>
    rw [hsk] at h
    right
    exact (create_hash_ok_key gen s h).2.2

end ShadowSessionDict

namespace ShadowSessionDict

/-- Outcomes of the `exists` check: on `false` the key is reset and the
`shadow_key` cookie field is gone; on `true` nothing changes and a key was
held.  The store itself is never written (the state's redis is unchanged
in both cases). -/
theorem existsRecord_spec {V : Type} (s : SState V) :
    ((existsRecord s).1 = false →
      (existsRecord s).2.key = none ∧
      alookup SHADOW_KEY_NAME (existsRecord s).2.cookie = none ∧
      (existsRecord s).2.redis = s.redis ∧
      (existsRecord s).2.accessed = s.accessed ∧
      (existsRecord s).2.maxAge = s.maxAge) ∧
    ((existsRecord s).1 = true →
      (existsRecord s).2.key = s.key ∧ s.key.isSome = true ∧
      (existsRecord s).2.cookie = s.cookie ∧
      (existsRecord s).2.redis = s.redis ∧
      (existsRecord s).2.accessed = s.accessed ∧
      (existsRecord s).2.maxAge = s.maxAge) := by
  cases hk : s.key with
  | none =>
    constructor
    · intro _
      by_cases hcl : (alookup SHADOW_KEY_NAME s.cookie).isSome
      · simp [existsRecord, hk, hcl, cookieDel, alookup_aremove_self]
      · have hcl' : alookup SHADOW_KEY_NAME s.cookie = none :=
          Option.not_isSome_iff_eq_none.mp hcl
        simp [existsRecord, hk, hcl, hcl']
    · intro htrue
      simp [existsRecord, hk] at htrue
  | some k =>
    cases hex : s.redis.keyExists k with
    | false =>
      constructor
      · intro _
        by_cases hcl : (alookup SHADOW_KEY_NAME s.cookie).isSome
        · simp [existsRecord, hk, hex, hcl, emit, cookieDel,
            alookup_aremove_self]
        · have hcl' : alookup SHADOW_KEY_NAME s.cookie = none :=
            Option.not_isSome_iff_eq_none.mp hcl
          simp [existsRecord, hk, hex, hcl, hcl', emit]
      · intro htrue
        simp [existsRecord, hk, hex, emit] at htrue
    | true =>
      constructor
      · intro hfalse
        simp [existsRecord, hk, hex, emit] at hfalse
      · intro _
        simp [existsRecord, hk, hex, emit]

/-- Outcome of `delete`: key reset, `shadow_key` cookie field gone, and the
held record (if any) removed from the store. -/
theorem deleteRecord_spec {V : Type} (s : SState V) :
    (deleteRecord s).key = none ∧
    alookup SHADOW_KEY_NAME (deleteRecord s).cookie = none ∧
    (∀ k, s.key = some k →
      alookup k (deleteRecord s).redis.entries = none) := by
  refine ⟨rfl, ?_, ?_⟩
  · cases hk : s.key with
    | none =>
      simp only [deleteRecord, hk]
      split
      · simp [cookieDel, alookup_aremove_self]
      · rename_i h
        have h2 : alookup SHADOW_KEY_NAME s.cookie = none :=
          Option.not_isSome_iff_eq_none.mp (by simpa using h)
        simpa using h2
    | some k0 =>
      simp only [deleteRecord, hk, emit]
      split
      · simp [cookieDel, alookup_aremove_self]
      · rename_i h
        have h2 : alookup SHADOW_KEY_NAME s.cookie = none :=
          Option.not_isSome_iff_eq_none.mp (by simpa using h)
        simpa using h2
  · intro k hkk
    cases hk : s.key with
    | none =>
      rw [hk] at hkk
      exact absurd hkk (by simp)
    | some k0 =>
      rw [hk] at hkk
      injection hkk with hkk'
      subst hkk'
      simp only [deleteRecord, hk, emit, RedisState.del]
      split
      · simp [cookieDel, alookup_aremove_self]
      · simp [alookup_aremove_self]

/-- `save_session` never changes the held key. -/
theorem save_session_key {V : Type} (s : SState V) :
    (save_session s).key = s.key := by
  cases hk : s.key with
  | none => simp [save_session, hk]
  | some k =>
    cases hacc : s.accessed with
    | false => simp [save_session, hk, hacc]
    | true => simp [save_session, hk, hacc, emitPipe]

/-- A successful field read holds a key afterwards. -/
theorem getItem_ok_key {V : Type} (gen : Nat → String) {name : String}
    {s : SState V} {v : Option V} {s2 : SState V}
    (h : getItem gen name s = Except.ok (v, s2)) : ∃ k, s2.key = some k := by
  rw [getItem] at h
  cases hek : ensureKey gen { s with accessed := true, modified := true } with
  | error e => rw [hek] at h; simp [Except.map] at h
  | ok p =>
    rw [hek] at h
    simp only [Except.map, Except.ok.injEq] at h
    refine ⟨p.1, ?_⟩
    have hq : p.2.key = some p.1 :=
      ensureKey_ok_key gen
        (show ensureKey gen { s with accessed := true, modified := true } =
          Except.ok (p.1, p.2) by rw [hek])
    have h2 : s2 = emit p.2 (RCmd.hget p.1 name) :=
      ((Prod.mk.injEq _ _ _ _).mp h).2.symm
    rw [h2]
    simpa [emit] using hq

/-- A successful field write holds a key afterwards. -/
theorem setItem_ok_key {V : Type} (gen : Nat → String) {name : String}
    {v : V} {s : SState V} {s2 : SState V}
    (h : setItem gen name v s = Except.ok s2) : ∃ k, s2.key = some k := by
  rw [setItem] at h
  cases hek : ensureKey gen { s with accessed := true, modified := true } with
  | error e => rw [hek] at h; simp [Except.map] at h
  | ok p =>
    rw [hek] at h
    simp only [Except.map, Except.ok.injEq] at h
    refine ⟨p.1, ?_⟩
    have hq : p.2.key = some p.1 :=
      ensureKey_ok_key gen
        (show ensureKey gen { s with accessed := true, modified := true } =
          Except.ok (p.1, p.2) by rw [hek])
    rw [← h]
    simpa [emit] using hq

/-- A successful field delete holds a key afterwards. -/
theorem delItem_ok_key {V : Type} (gen : Nat → String) {name : String}
    {s : SState V} {s2 : SState V}
    (h : delItem gen name s = Except.ok s2) : ∃ k, s2.key = some k := by
  rw [delItem] at h
  cases hek : ensureKey gen { s with accessed := true, modified := true } with
  | error e => rw [hek] at h; simp [Except.map] at h
  | ok p =>
    rw [hek] at h
    simp only [Except.map, Except.ok.injEq] at h
    refine ⟨p.1, ?_⟩
    have hq : p.2.key = some p.1 :=
      ensureKey_ok_key gen
        (show ensureKey gen { s with accessed := true, modified := true } =
          Except.ok (p.1, p.2) by rw [hek])
    rw [← h]
    simpa [emit] using hq

end ShadowSessionDict

/-! ## Claims -/

/-- C2: `create_key` (`_create_hash`) tries at most 100 candidate keys; a
candidate is accepted exactly when the set-if-absent on
`candidate ++ "-reserved"` succeeds and the candidate key itself does not
exist in the store (the `accepts` predicate); when the reservation succeeds
but the candidate exists, the reservation is deleted before retrying (store
entries restored, the attempt ending in a `DEL` of the marker); and the
operation raises the generation-exhausted `ValueError` if and only if no
candidate among the 100 attempts is accepted. -/
theorem claim_C2_create_key_attempts {V : Type} (gen : Nat → String)
    (s : SState V) :
    ((∃ e, ShadowSessionDict._create_hash gen s = Except.error e) ↔
       ∀ m, m < 100 → accepts s.redis.entries (gen m) = false) ∧
    (∀ k s2, ShadowSessionDict._create_hash gen s = Except.ok (k, s2) →
       ∃ j, j < 100 ∧ k = gen j ∧ accepts s.redis.entries (gen j) = true ∧
         ∀ m, m < j → accepts s.redis.entries (gen m) = false) ∧
    (∀ i, accepts s.redis.entries (gen i) = false →
       (ShadowSessionDict.attemptOnce gen i s).1 = none ∧
       (ShadowSessionDict.attemptOnce gen i s).2.redis.entries =
         s.redis.entries) ∧
    (∀ i, alookup (gen i ++ "-reserved") s.redis.entries = none →
       (alookup (gen i) s.redis.entries).isSome →
       (ShadowSessionDict.attemptOnce gen i s).2.trace = s.trace ++
         [TraceItem.cmd (RCmd.setnx (gen i ++ "-reserved")),
          TraceItem.cmd (RCmd.rexists (gen i)),
          TraceItem.cmd (RCmd.del (gen i ++ "-reserved"))]) ∧
    (∀ i, accepts s.redis.entries (gen i) = true →
       (ShadowSessionDict.attemptOnce gen i s).1 =
         some (gen i, gen i ++ "-reserved")) := by
  refine ⟨?_, ?_, ?_, ?_, ?_⟩
  · rw [ShadowSessionDict.create_hash_error_iff, firstAcceptFrom_none_iff]
    constructor
    · intro h m hm
      exact h m (Nat.zero_le m) (by omega)
    · intro h m _ hm
      exact h m (by omega)
  · intro k s2 h
    cases hfa : firstAcceptFrom s.redis.entries gen 0 100 with
    | none =>
      obtain ⟨e, he⟩ :=
        (ShadowSessionDict.create_hash_error_iff gen s).mpr hfa
      rw [h] at he
      exact absurd he (by simp)
    | some j =>
      obtain ⟨_, hju, hacc, hleast⟩ := firstAcceptFrom_spec hfa
      refine ⟨j, by omega, ?_, hacc, fun m hm => hleast m (Nat.zero_le m) hm⟩
      unfold ShadowSessionDict._create_hash at h
      obtain ⟨s1, hrun, _⟩ :=
        ShadowSessionDict.createLoopGo_success gen 100 0 s j hfa
      rw [hrun] at h
      simp only [Except.ok.injEq] at h
      have := (ShadowSessionDict.createHashFinish_key
        (gen j) (gen j ++ "-reserved") s1).1
      rw [h] at this
      simpa using this
  · intro i hacc
    by_cases hres : (alookup (gen i ++ "-reserved") s.redis.entries).isSome
    · rw [ShadowSessionDict.attemptOnce_reserved gen i s hres]
      exact ⟨rfl, rfl⟩
    · have hres' : alookup (gen i ++ "-reserved") s.redis.entries = none :=
        Option.not_isSome_iff_eq_none.mp hres
      have hex : (alookup (gen i) s.redis.entries).isSome := by
        simp only [accepts, hres'] at hacc
        simp only [Option.isSome_none, Bool.not_false, Bool.true_and,
          Bool.not_eq_false'] at hacc
        exact hacc
      obtain ⟨h1, h2, _⟩ :=
        ShadowSessionDict.attemptOnce_taken gen i s hres' hex
      exact ⟨h1, h2⟩
  · intro i hres hex
    have hne : gen i ++ "-reserved" ≠ gen i := reserve_ne_candidate (gen i)
    simp [ShadowSessionDict.attemptOnce, RedisState.setnx, hres,
      RedisState.keyExists, emit, RedisState.del, alookup, hne, hex]
  · intro i hacc
    have hres' : alookup (gen i ++ "-reserved") s.redis.entries = none := by
      simp only [accepts, Bool.and_eq_true, Bool.not_eq_true'] at hacc
      exact Option.not_isSome_iff_eq_none.mp (by simp [hacc.1])
    have hex' : alookup (gen i) s.redis.entries = none := by
      simp only [accepts, Bool.and_eq_true, Bool.not_eq_true'] at hacc
      exact Option.not_isSome_iff_eq_none.mp (by simp [hacc.2])
    exact (ShadowSessionDict.attemptOnce_accepted gen i s hres' hex').1

/-- C2 witness: on the empty store the constant generator is accepted at
the first attempt. -/
theorem claim_C2_witness :
    (ShadowSessionDict.attemptOnce genA 0 sEmpty).1 =
      some ("newkey", "newkey" ++ "-reserved") :=
  (claim_C2_create_key_attempts genA sEmpty).2.2.2.2 0 (by decide)

/-- C3: after a candidate is accepted, `_create_hash` performs in one
pipeline, in order: the `_on_create_hash` hook when no previous key existed
(a no-op contributing no commands) or a rename-if-absent of the previous
key to the new key, adopting the new key as current; then an expiry on the
new key when `max_age` is set; then the deletion of the held reservation
marker (all recorded in `createHashPipe`, the store effect being
`createHashEntries`); afterwards the new key is written into the
cookie-side session under `shadow_key` and returned. -/
theorem claim_C3_create_key_pipeline {V : Type} (gen : Nat → String)
    (s : SState V) (j : Nat)
    (hj : firstAcceptFrom s.redis.entries gen 0 100 = some j)
    (hold : ∀ old, s.key = some old → old ≠ gen j ++ "-reserved") :
    ∃ s2, ShadowSessionDict._create_hash gen s = Except.ok (gen j, s2) ∧
      s2.key = some (gen j) ∧
      s2.cookie = aset SHADOW_KEY_NAME (CVal.skey (gen j)) s.cookie ∧
      s2.modified = true ∧
      s2.redis.entries = createHashEntries s.redis.entries s.key (gen j) ∧
      ∃ tl, s2.trace = s.trace ++ tl ++
        [TraceItem.pipe (createHashPipe s.key s.maxAge (gen j))] := by
  obtain ⟨s2, h1, h2, h3, h4, _, _, _, h8, h9⟩ :=
    ShadowSessionDict.create_hash_spec gen s j hj hold
  exact ⟨s2, h1, h2, h3, h4, h8, h9⟩

/-- C3 witness: concrete run over a session holding key `"old"`. -/
theorem claim_C3_witness :
    ∃ s2, ShadowSessionDict._create_hash genA sOld =
        Except.ok (genA 0, s2) ∧
      s2.key = some (genA 0) ∧
      s2.cookie = aset SHADOW_KEY_NAME (CVal.skey (genA 0)) sOld.cookie ∧
      s2.modified = true ∧
      s2.redis.entries =
        createHashEntries sOld.redis.entries sOld.key (genA 0) ∧
      ∃ tl, s2.trace = sOld.trace ++ tl ++
        [TraceItem.pipe (createHashPipe sOld.key sOld.maxAge (genA 0))] :=
  claim_C3_create_key_pipeline genA sOld 0 (by decide)
    (by
      intro old h
      have h2 : some "old" = some old := h
      injection h2 with h3
      subst h3
      decide)

/-- C4: for a record holding a key and stored contents, `regenerate_key`
forces key creation even though a key already exists; afterwards every
previously-set shadow field is readable unchanged under the new key, the
old key no longer exists in the store, and only the identifier changed. -/
theorem claim_C4_regenerate_preserves {V : Type} (gen : Nat → String)
    (s : SState V) (old : String) (H : List (String × V)) (j : Nat)
    (hk : s.key = some old)
    (hrec : alookup old s.redis.entries = some (Entry.hash H))
    (hj : firstAcceptFrom s.redis.entries gen 0 100 = some j) :
    ∃ s2, ShadowSessionDict.regenerate_key gen s = Except.ok (gen j, s2) ∧
      s2.key = some (gen j) ∧
      alookup (gen j) s2.redis.entries = some (Entry.hash H) ∧
      alookup old s2.redis.entries = none ∧
      ∀ f, s2.redis.hget (gen j) f = alookup f H := by
  obtain ⟨_, _, hacc, _⟩ := firstAcceptFrom_spec hj
  have hresn : alookup (gen j ++ "-reserved") s.redis.entries = none := by
    simp only [accepts, Bool.and_eq_true, Bool.not_eq_true'] at hacc
    exact Option.not_isSome_iff_eq_none.mp (by simp [hacc.1])
  have hexn : alookup (gen j) s.redis.entries = none := by
    simp only [accepts, Bool.and_eq_true, Bool.not_eq_true'] at hacc
    exact Option.not_isSome_iff_eq_none.mp (by simp [hacc.2])
  have hold : ∀ o, s.key = some o → o ≠ gen j ++ "-reserved" := by
    intro o ho hbad
    rw [hk] at ho
    injection ho with ho'
    rw [ho', hbad, hresn] at hrec
    exact absurd hrec (by simp)
  have holdnk : old ≠ gen j := by
    intro hbad
    rw [hbad, hexn] at hrec
    exact absurd hrec (by simp)
  obtain ⟨s2, h1, h2, _, _, _, _, _, h8, _⟩ :=
    ShadowSessionDict.create_hash_spec gen s j hj hold
  have hent : s2.redis.entries =
      aset (gen j) (Entry.hash H) (aremove old s.redis.entries) := by
    rw [h8, hk]
    simp only [createHashEntries]
    rw [hrec]
  refine ⟨s2, h1, h2, ?_, ?_, ?_⟩
  · rw [hent]
    exact alookup_aset_self _ _ _
  · rw [hent, alookup_aset_ne _ holdnk]
    exact alookup_aremove_self _ _
  · intro f
    rw [RedisState.hget, hent]
    rw [alookup_aset_self]

/-- C4 witness: rotating the key of a record storing `"f" = 7`. -/
theorem claim_C4_witness :
    ∃ s2, ShadowSessionDict.regenerate_key genA sOld =
        Except.ok (genA 0, s2) ∧
      s2.key = some (genA 0) ∧
      alookup (genA 0) s2.redis.entries =
        some (Entry.hash [("f", (7 : Nat))]) ∧
      alookup "old" s2.redis.entries = none ∧
      ∀ f, s2.redis.hget (genA 0) f = alookup f [("f", (7 : Nat))] :=
  claim_C4_regenerate_preserves genA sOld "old" [("f", 7)] 0
    (by decide) (by decide) (by decide)

/-- C10: `regenerate_key` leaves the record's `accessed` flag unchanged, so
with `accessed` still false a subsequent `save_session` issues no store
operations even though a key now exists. -/
theorem claim_C10_regenerate_accessed {V : Type} (gen : Nat → String)
    (s : SState V) (k : String) (s2 : SState V)
    (h : ShadowSessionDict.regenerate_key gen s = Except.ok (k, s2)) :
    s2.accessed = s.accessed ∧
    s2.key = some k ∧
    (s.accessed = false → ShadowSessionDict.save_session s2 = s2) := by
  obtain ⟨hk2, hacc, _⟩ := ShadowSessionDict.create_hash_ok_key gen s h
  refine ⟨hacc, hk2, fun hf => ?_⟩
  have hacc2 : s2.accessed = false := by rw [hacc, hf]
  simp [ShadowSessionDict.save_session, hk2, hacc2]

/-- C10 witness: a concrete regeneration with `accessed = false`. -/
theorem claim_C10_witness :
    ∃ k s2, ShadowSessionDict.regenerate_key genA sOld = Except.ok (k, s2) ∧
      s2.accessed = sOld.accessed ∧ s2.key = some k ∧
      ShadowSessionDict.save_session s2 = s2 := by
  match hrun : ShadowSessionDict.regenerate_key genA sOld with
  | Except.error e =>
    have hsome : (ShadowSessionDict.regenerate_key genA sOld).toOption.isSome =
        true := by decide
    rw [hrun] at hsome
    simp [Except.toOption] at hsome
  | Except.ok (k, s2) =>
    obtain ⟨h1, h2, h3⟩ :=
      claim_C10_regenerate_accessed genA sOld k s2 hrun
    exact ⟨k, s2, rfl, h1, h2, h3 (by decide)⟩

/-- C5: `save_session` issues no store operations at all when `accessed` is
false or no key is held (hence a save with no intervening field access
leaves everything, store included, unchanged, and a second consecutive such
save issues nothing either); with `accessed` true and a key held it
executes exactly one pipeline holding the `_on_save_session` hook commands
(none in this class) followed by, when `max_age` is set, an `EXPIRE` of the
key to `max_age`; nothing else changes. -/
theorem claim_C5_save_session {V : Type} (s : SState V) :
    (s.accessed = false ∨ s.key = none →
      ShadowSessionDict.save_session s = s) ∧
    (s.accessed = false →
      ShadowSessionDict.save_session (ShadowSessionDict.save_session s) = s) ∧
    (∀ k, s.accessed = true → s.key = some k →
      (ShadowSessionDict.save_session s).trace = s.trace ++
        [TraceItem.pipe (match s.maxAge with
          | some a => [RCmd.expire k a]
          | none => [])] ∧
      (ShadowSessionDict.save_session s).redis.entries = s.redis.entries ∧
      (ShadowSessionDict.save_session s).key = s.key ∧
      (ShadowSessionDict.save_session s).accessed = s.accessed ∧
      (ShadowSessionDict.save_session s).cookie = s.cookie ∧
      (ShadowSessionDict.save_session s).maxAge = s.maxAge) := by
  have hexp : ∀ (r : RedisState V) (k : String) (a : Nat),
      (r.expire k a).entries = r.entries := by
    intro r k a
    simp only [RedisState.expire]
    split
    · rfl
    · rfl
  refine ⟨?_, ?_, ?_⟩
  · intro h
    cases hk : s.key with
    | none => simp [ShadowSessionDict.save_session, hk]
    | some k =>
      cases h with
      | inl hacc => simp [ShadowSessionDict.save_session, hk, hacc]
      | inr hnone => rw [hk] at hnone; exact absurd hnone (by simp)
  · intro hacc
    cases hk : s.key with
    | none => simp [ShadowSessionDict.save_session, hk]
    | some k => simp [ShadowSessionDict.save_session, hk, hacc]
  · intro k hacc hk
    cases hma : s.maxAge with
    | none =>
      simp [ShadowSessionDict.save_session, hk, hacc, hma, emitPipe]
    | some a =>
      simp [ShadowSessionDict.save_session, hk, hacc, hma, emitPipe, hexp]

/-- C5 witness: an accessed session with a key and a 60-second TTL saves
through exactly one pipeline holding the expire. -/
theorem claim_C5_witness :
    (ShadowSessionDict.save_session { sOld with accessed := true }).trace =
      ({ sOld with accessed := true } : SState Nat).trace ++
        [TraceItem.pipe [RCmd.expire "old" 60]] :=
  ((claim_C5_save_session { sOld with accessed := true }).2.2 "old"
    (by decide) (by decide)).1

/-- C7: opening the shadow record with a session argument that is not a
`ShadowSession`, or with a store handle that is not a `Redis` connection,
raises a `TypeError` before any store I/O (the state at the raise point is
exactly the input state); on valid arguments nothing is raised, and no
store command is issued either. -/
theorem claim_C7_open_validation {V : Type} (sessionOk redisOk : Bool)
    (ma : Option Nat) (s : SState V) :
    ((∃ e s', ShadowSessionDict.open_session sessionOk redisOk ma s =
        Except.error (e, s')) ↔ ¬(sessionOk = true ∧ redisOk = true)) ∧
    (∀ e s', ShadowSessionDict.open_session sessionOk redisOk ma s =
        Except.error (e, s') → s' = s) ∧
    (sessionOk = true → redisOk = true →
      ∃ s', ShadowSessionDict.open_session sessionOk redisOk ma s =
          Except.ok s' ∧ s'.trace = s.trace ∧ s'.redis = s.redis ∧
          s'.accessed = false ∧ s'.maxAge = ma) := by
  cases sessionOk with
  | false =>
    refine ⟨?_, ?_, ?_⟩
    · simp [ShadowSessionDict.open_session]
    · intro e s' h
      simp only [ShadowSessionDict.open_session, Bool.not_false, if_true,
        Except.error.injEq, Prod.mk.injEq] at h
      exact h.2.symm
    · intro h
      exact absurd h (by simp)
  | true =>
    cases redisOk with
    | false =>
      refine ⟨?_, ?_, ?_⟩
      · simp [ShadowSessionDict.open_session]
      · intro e s' h
        simp only [ShadowSessionDict.open_session, Bool.not_true,
          Bool.false_eq_true, if_false, Bool.not_false, if_true,
          Except.error.injEq, Prod.mk.injEq] at h
        exact h.2.symm
      · intro _ h
        exact absurd h (by simp)
    | true =>
      refine ⟨?_, ?_, ?_⟩
      · simp [ShadowSessionDict.open_session]
      · intro e s' h
        simp [ShadowSessionDict.open_session] at h
      · intro _ _
        exact ⟨_, rfl, rfl, rfl, rfl, rfl⟩

/-- C7 witness: valid arguments raise nothing and issue no store command. -/
theorem claim_C7_witness :
    ∃ s', ShadowSessionDict.open_session true true (some 60) sEmpty =
        Except.ok s' ∧ s'.trace = sEmpty.trace ∧ s'.redis = sEmpty.redis ∧
        s'.accessed = false ∧ s'.maxAge = some 60 :=
  (claim_C7_open_validation true true (some 60) sEmpty).2.2 rfl rfl

/-- C8 counterexample: the claim says the computed `max_age` is the
explicit override "when one is configured"; but the source computes
`self.max_age or total_seconds(...)`, so a configured override of `0`
(falsy in Python) is ignored in favour of the lifetime.  Concretely, with
override `0` and a 7-second permanent-session-lifetime the opened session
carries `max_age = 7`, not the configured `0`. -/
theorem claim_C8_counterexample :
    ∃ s', ShadowSessionInterface.open_session (some sEmpty) (some 0) 7 true =
        Except.ok (some s') ∧ s'.maxAge = some 7 ∧ s'.maxAge ≠ some 0 :=
  ⟨_, rfl, rfl, by decide⟩

/-- C8 (amended): the coordinator's `open_session` returns nothing when
cookie decoding yields nothing; otherwise it sets the session's `permanent`
flag to false, computes `max_age` as the explicit override when one is
configured with a nonzero value and otherwise as the app's
permanent-session-lifetime in seconds, opens the shadow record with the
store handle and that `max_age` (resetting `accessed`, loading `key` from
the cookie's `shadow_key` field, touching neither store nor trace), and
returns the session. -/
theorem claim_C8_open_session_amended {V : Type} (decoded : Option (SState V))
    (ifaceMaxAge : Option Nat) (lifetime : Nat) :
    (decoded = none →
      ShadowSessionInterface.open_session decoded ifaceMaxAge lifetime true =
        Except.ok none) ∧
    (∀ s, decoded = some s →
      ∃ s', ShadowSessionInterface.open_session decoded ifaceMaxAge lifetime
          true = Except.ok (some s') ∧
        s'.permanent = false ∧
        s'.accessed = false ∧
        s'.key = (match alookup SHADOW_KEY_NAME s.cookie with
                  | some (CVal.skey k) => some k
                  | _ => none) ∧
        s'.cookie = s.cookie ∧ s'.redis = s.redis ∧ s'.trace = s.trace ∧
        (∀ n, ifaceMaxAge = some n → n ≠ 0 → s'.maxAge = some n) ∧
        ((ifaceMaxAge = none ∨ ifaceMaxAge = some 0) →
          s'.maxAge = some lifetime)) := by
  constructor
  · intro h
    rw [h]
    rfl
  · intro s h
    rw [h]
    cases hma : ifaceMaxAge with
    | none =>
      refine ⟨_, rfl, rfl, rfl, rfl, rfl, rfl, rfl, ?_, ?_⟩
      · intro n hn
        exact absurd hn (by simp)
      · intro _
        simp [ShadowSessionInterface.open_session,
          ShadowSessionDict.open_session]
    | some n =>
      by_cases hz : n = 0
      · subst hz
        refine ⟨_, rfl, rfl, rfl, rfl, rfl, rfl, rfl, ?_, ?_⟩
        · intro n' hn' hnz
          injection hn' with hh
          exact absurd hh.symm hnz
        · intro _
          simp [ShadowSessionInterface.open_session,
            ShadowSessionDict.open_session]
      · refine ⟨_, rfl, rfl, rfl, rfl, rfl, rfl, rfl, ?_, ?_⟩
        · intro n' hn' _
          injection hn' with hh
          subst hh
          simp [ShadowSessionInterface.open_session,
            ShadowSessionDict.open_session, hz]
        · intro hcase
          cases hcase with
          | inl h0 => exact absurd h0 (by simp)
          | inr h0 =>
            injection h0 with hh
            exact absurd hh hz

/-- C8 witness: a nonzero configured override wins over the lifetime. -/
theorem claim_C8_witness :
    ∃ s', ShadowSessionInterface.open_session (some sEmpty) (some 300) 3600
        true = Except.ok (some s') ∧ s'.maxAge = some 300 := by
  obtain ⟨s', h1, _, _, _, _, _, _, h8, _⟩ :=
    (claim_C8_open_session_amended (some sEmpty) (some 300) 3600).2 sEmpty rfl
  exact ⟨s', h1, h8 300 rfl (by decide)⟩

/-- C1: every `ShadowSession` item operation (`get`, `set`, `delete`,
`contains`, `pop`) on a field name delegates to the shadow record exactly
when the name is a member of `forcedShadowFields` (which equals the
singleton `["_flashes"]`), and otherwise to the inherited cookie-side
mapping; consequently writing then reading a non-forced field returns the
written value from the cookie-side mapping with the store and the command
trace untouched, and writing a forced field never stores it in the
cookie-side mapping. -/
theorem claim_C1_routing {V : Type} (gen : Nat → String) (name : String)
    (v : V) (s : SState V) :
    (forcedShadowFields = ["_flashes"]) ∧
    (name ∈ forcedShadowFields →
      ShadowSession.getItem gen name s =
        (ShadowSessionDict.getItem gen name s).map
          (fun p => (p.1.map CVal.val, p.2)) ∧
      ShadowSession.setItem gen name v s =
        ShadowSessionDict.setItem gen name v s ∧
      ShadowSession.delItem gen name s =
        ShadowSessionDict.delItem gen name s ∧
      ShadowSession.containsItem gen name s =
        ShadowSessionDict.containsItem gen name s ∧
      ShadowSession.popItem gen name s =
        (ShadowSessionDict.popItem gen name s).map
          (fun p => (p.1.map CVal.val, p.2))) ∧
    (name ∉ forcedShadowFields →
      ShadowSession.getItem gen name s = Except.ok (cookieGet name s, s) ∧
      ShadowSession.setItem gen name v s =
        Except.ok (cookieSet name (CVal.val v) s) ∧
      ShadowSession.delItem gen name s = Except.ok (cookieDel name s) ∧
      ShadowSession.containsItem gen name s =
        Except.ok ((alookup name s.cookie).isSome, s) ∧
      ShadowSession.popItem gen name s = Except.ok (cookiePop name s)) ∧
    (name ∉ forcedShadowFields →
      ShadowSession.getItem gen name (cookieSet name (CVal.val v) s) =
        Except.ok (some (CVal.val v), cookieSet name (CVal.val v) s) ∧
      (cookieSet name (CVal.val v) s).redis = s.redis ∧
      (cookieSet name (CVal.val v) s).trace = s.trace) ∧
    (name ∈ forcedShadowFields → ∀ s2,
      ShadowSession.setItem gen name v s = Except.ok s2 →
      alookup name s2.cookie = alookup name s.cookie) := by
  refine ⟨rfl, ?_, ?_, ?_, ?_⟩
  · intro hmem
    refine ⟨?_, ?_, ?_, ?_, ?_⟩
    · simp [ShadowSession.getItem, hmem]
    · simp [ShadowSession.setItem, hmem]
    · simp [ShadowSession.delItem, hmem]
    · simp [ShadowSession.containsItem, hmem]
    · simp [ShadowSession.popItem, hmem]
  · intro hmem
    refine ⟨?_, ?_, ?_, ?_, ?_⟩
    · simp [ShadowSession.getItem, hmem]
    · simp [ShadowSession.setItem, hmem]
    · simp [ShadowSession.delItem, hmem]
    · simp [ShadowSession.containsItem, hmem]
    · simp [ShadowSession.popItem, hmem]
  · intro hmem
    refine ⟨?_, rfl, rfl⟩
    simp [ShadowSession.getItem, hmem, cookieGet, cookieSet,
      alookup_aset_self]
  · intro hmem s2 hset
    have hname : name = "_flashes" := by
      simpa [forcedShadowFields] using hmem
    have hns : name ≠ SHADOW_KEY_NAME := by
      rw [hname]
      decide
    rw [ShadowSession.setItem, if_pos hmem] at hset
    rw [ShadowSessionDict.setItem] at hset
    cases hek : ShadowSessionDict.ensureKey gen
        { s with accessed := true, modified := true } with
    | error e =>
      rw [hek] at hset
      simp [Except.map] at hset
    | ok p =>
      rw [hek] at hset
      simp only [Except.map, Except.ok.injEq] at hset
      have hcookie2 : s2.cookie = p.2.cookie := by
        rw [← hset]
        rfl
      cases p with
      | mk k sE =>
        have hco := ShadowSessionDict.ensureKey_ok_cookie gen hek
        cases hco with
        | inl hsame =>
          rw [hcookie2, hsame]
        | inr hshadow =>
          rw [hcookie2, hshadow]
          exact alookup_aset_ne _ hns _

/-- C1 witness: writing then reading the non-forced field `"x"` on a fresh
session round-trips through the cookie with the store untouched. -/
theorem claim_C1_witness :
    ShadowSession.getItem genA "x" (cookieSet "x" (CVal.val 5) sEmpty) =
      Except.ok (some (CVal.val 5), cookieSet "x" (CVal.val (5 : Nat))
        sEmpty) ∧
    (cookieSet "x" (CVal.val (5 : Nat)) sEmpty).redis = sEmpty.redis :=
  ⟨((claim_C1_routing genA "x" (5 : Nat) sEmpty).2.2.2.1 (by decide)).1,
   ((claim_C1_routing genA "x" (5 : Nat) sEmpty).2.2.2.1 (by decide)).2.1⟩

/-- C6: when the `exists` check returns false, the `shadow_key` field is
removed from the cookie-side session (when present) and `key` is reset to
`None`, so that the next field access transparently creates a new key and
an empty record without error; `delete` likewise removes the record from
the store, removes `shadow_key` from the cookie, and resets `key` to
`None`. -/
theorem claim_C6_self_heal {V : Type} (gen : Nat → String) (s : SState V) :
    ((ShadowSessionDict.existsRecord s).1 = false →
      alookup SHADOW_KEY_NAME
        (ShadowSessionDict.existsRecord s).2.cookie = none ∧
      (ShadowSessionDict.existsRecord s).2.key = none ∧
      (∀ f j, firstAcceptFrom
          (ShadowSessionDict.existsRecord s).2.redis.entries gen 0 100 =
            some j →
        ∃ s3, ShadowSessionDict.getItem gen f
            (ShadowSessionDict.existsRecord s).2 = Except.ok (none, s3) ∧
          s3.key = some (gen j))) ∧
    (alookup SHADOW_KEY_NAME
      (ShadowSessionDict.deleteRecord s).cookie = none ∧
     (ShadowSessionDict.deleteRecord s).key = none ∧
     ∀ k, s.key = some k →
       alookup k (ShadowSessionDict.deleteRecord s).redis.entries = none) := by
  constructor
  · intro hrv
    obtain ⟨hkey, hcookie, _, _, _⟩ :=
      (ShadowSessionDict.existsRecord_spec s).1 hrv
    refine ⟨hcookie, hkey, ?_⟩
    intro f j hj
    generalize (ShadowSessionDict.existsRecord s).2 = s' at hkey hj ⊢
    obtain ⟨c, mo, pe, ac, ky, ma, rd, tr⟩ := s'
    dsimp only at hkey hj ⊢
    subst hkey
    obtain ⟨s2, h1, h2key, _, _, _, _, _, h8, _⟩ :=
      ShadowSessionDict.create_hash_spec gen
        ⟨c, true, pe, true, none, ma, rd, tr⟩ j hj
        (fun old h => absurd h (by simp))
    obtain ⟨_, _, hacc, _⟩ := firstAcceptFrom_spec hj
    have hxn : alookup (gen j) rd.entries = none := by
      simp only [accepts, Bool.and_eq_true, Bool.not_eq_true'] at hacc
      exact Option.not_isSome_iff_eq_none.mp (by simp [hacc.2])
    have hval : s2.redis.hget (gen j) f = none := by
      simp only [RedisState.hget]
      rw [h8]
      simp only [createHashEntries]
      rw [hxn]
    refine ⟨emit s2 (RCmd.hget (gen j) f), ?_, ?_⟩
    · simp only [ShadowSessionDict.getItem, ShadowSessionDict.ensureKey]
      rw [h1]
      simp only [Except.map]
      rw [hval]
    · simpa [emit] using h2key
  · obtain ⟨d1, d2, d3⟩ := ShadowSessionDict.deleteRecord_spec s
    exact ⟨d2, d1, d3⟩

/-- C6 witness: a cookie-carried key whose record expired heals itself and
the next read creates a fresh empty record. -/
theorem claim_C6_witness :
    alookup SHADOW_KEY_NAME
      (ShadowSessionDict.existsRecord sGone).2.cookie = none ∧
    (ShadowSessionDict.existsRecord sGone).2.key = none ∧
    ∃ s3, ShadowSessionDict.getItem genA "f"
        (ShadowSessionDict.existsRecord sGone).2 = Except.ok (none, s3) ∧
      s3.key = some (genA 0) := by
  obtain ⟨h1, h2, h3⟩ := (claim_C6_self_heal genA sGone).1 (by decide)
  exact ⟨h1, h2, h3 "f" 0 (by decide)⟩

/-- One operation preserves the key invariant against its ghost history. -/
theorem stepRun_keyInv {V : Type} (gen : Nat → String) (s : SState V)
    (g : Ghost) (st : Step V) (s2 : SState V) (hinv : KeyInv s g)
    (h : stepRun gen s st = Except.ok s2) :
    KeyInv s2 (ghostStep s g st) := by
  cases st with
  | getF name =>
    simp only [stepRun] at h
    cases hg : ShadowSessionDict.getItem gen name s with
    | error e => rw [hg] at h; simp [Except.map] at h
    | ok p =>
      rw [hg] at h
      simp only [Except.map, Except.ok.injEq] at h
      obtain ⟨k, hk⟩ := ShadowSessionDict.getItem_ok_key gen
        (show ShadowSessionDict.getItem gen name s = Except.ok (p.1, p.2)
          by rw [hg])
      rw [← h]
      simp [KeyInv, ghostStep, hk]
  | setF name v =>
    simp only [stepRun] at h
    obtain ⟨k, hk⟩ := ShadowSessionDict.setItem_ok_key gen h
    simp [KeyInv, ghostStep, hk]
  | delF name =>
    simp only [stepRun] at h
    obtain ⟨k, hk⟩ := ShadowSessionDict.delItem_ok_key gen h
    simp [KeyInv, ghostStep, hk]
  | existsCk =>
    simp only [stepRun, Except.ok.injEq] at h
    subst h
    cases hrv : (ShadowSessionDict.existsRecord s).1 with
    | false =>
      obtain ⟨hkey, _⟩ := (ShadowSessionDict.existsRecord_spec s).1 hrv
      simp [KeyInv, ghostStep, hrv, hkey]
    | true =>
      obtain ⟨hkey, hsome, _⟩ := (ShadowSessionDict.existsRecord_spec s).2 hrv
      have hne : s.key ≠ none := by
        intro hz
        rw [hz] at hsome
        exact absurd hsome (by simp)
      have hR : ¬(g.materialized = false ∨ g.healed = true) := by
        intro hr
        exact hne (hinv.mpr hr)
      simp only [KeyInv, ghostStep, hrv, if_true, hkey]
      exact iff_of_false hne hR
  | deleteRec =>
    simp only [stepRun, Except.ok.injEq] at h
    subst h
    have hkey := (ShadowSessionDict.deleteRecord_spec s).1
    simp [KeyInv, ghostStep, hkey]
  | save =>
    simp only [stepRun, Except.ok.injEq] at h
    subst h
    have hkey := ShadowSessionDict.save_session_key s
    simp only [KeyInv, ghostStep, hkey]
    exact hinv
  | regen =>
    simp only [stepRun] at h
    cases hg : ShadowSessionDict.regenerate_key gen s with
    | error e => rw [hg] at h; simp [Except.map] at h
    | ok p =>
      rw [hg] at h
      simp only [Except.map, Except.ok.injEq] at h
      have hk := (ShadowSessionDict.create_hash_ok_key gen s
        (show ShadowSessionDict._create_hash gen s = Except.ok (p.1, p.2)
          by rw [← hg]; rfl)).1
      rw [← h]
      simp [KeyInv, ghostStep, hk]

/-- C9: `key` is `None` exactly when no field has ever been materialized
for the (logical) session, or the record was since detected missing,
expired, or deleted in the store; the invariant holds right after `open`
(against the ghost initialized from the cookie-carried key) and is
preserved by every successful run of field accesses, `exists`, `delete`,
`save_session` and `regenerate_key` operations. -/
theorem claim_C9_key_invariant {V : Type} (gen : Nat → String) :
    (∀ s : SState V, KeyInv s (ghostInit s)) ∧
    (∀ (steps : List (Step V)) (s : SState V) (g : Ghost) (s2 : SState V)
       (g2 : Ghost), KeyInv s g →
       runGhost gen steps (s, g) = Except.ok (s2, g2) → KeyInv s2 g2) := by
  constructor
  · intro s
    cases hk : s.key with
    | none => simp [KeyInv, ghostInit, hk]
    | some k => simp [KeyInv, ghostInit, hk]
  · intro steps
    induction steps with
    | nil =>
      intro s g s2 g2 hinv h
      simp only [runGhost, Except.ok.injEq, Prod.mk.injEq] at h
      rw [← h.1, ← h.2]
      exact hinv
    | cons st rest ih =>
      intro s g s2 g2 hinv h
      simp only [runGhost] at h
      cases hst : stepRun gen s st with
      | error e => rw [hst] at h; simp at h
      | ok s3 =>
        rw [hst] at h
        exact ih s3 (ghostStep s g st) s2 g2
          (stepRun_keyInv gen s g st s3 hinv hst) h

/-- C9 witness: a concrete run (write, exists-check, delete, save) from a
fresh session preserves the invariant. -/
theorem claim_C9_witness :
    ∃ s2 g2, runGhost genA [Step.setF "a" (1 : Nat), Step.existsCk,
        Step.deleteRec, Step.save] (sEmpty, ghostInit sEmpty) =
        Except.ok (s2, g2) ∧ KeyInv s2 g2 := by
  match hrun : runGhost genA [Step.setF "a" (1 : Nat), Step.existsCk,
      Step.deleteRec, Step.save] (sEmpty, ghostInit sEmpty) with
  | Except.error e =>
    have hsome : (runGhost genA [Step.setF "a" (1 : Nat), Step.existsCk,
        Step.deleteRec, Step.save]
        (sEmpty, ghostInit sEmpty)).toOption.isSome = true := by decide
    rw [hrun] at hsome
    simp [Except.toOption] at hsome
  | Except.ok (s2, g2) =>
    exact ⟨s2, g2, rfl, (claim_C9_key_invariant genA).2
      [Step.setF "a" (1 : Nat), Step.existsCk, Step.deleteRec, Step.save]
      sEmpty (ghostInit sEmpty) s2 g2 (by unfold KeyInv; decide) hrun⟩

end ShadowSpec
